import Mathlib

/-!
Shallow embedding of the mongo-ftdc core (FTDC block decoder, file-reader
merge, time-series deriver, range filter / downsampler, assessment engine)
together with theorems settling the specification claims.

Go `float64` values are modelled as `ℚ` (all arithmetic in the embedded
fragments is field arithmetic on decoded integers; rationals have no NaN,
so `math.IsNaN` guards are modelled as always-false).  Go `uint64` values
are modelled as `Nat` with explicit wrap-around `% 2^64` where the source
subtracts or adds machine words.  Go `int` conversions of nonnegative
floats truncate toward zero, modelled by `truncQ`.
-/

/-- Truncation toward zero, the semantics of Go's `int(x)` conversion for a
finite float `x`. -/
def truncQ (q : ℚ) : Int := if 0 ≤ q then ⌊q⌋ else ⌈q⌉

/-- The `math.Round`: round half away from zero. -/
def roundHalfAway (q : ℚ) : Int := if 0 ≤ q then ⌊q + 1/2⌋ else ⌈q - 1/2⌉

/-- Two's-complement wrap of an integer into a `uint64`, as performed by Go
arithmetic on `uint64` operands. -/
def wrap64 (x : Int) : Nat := (x % (2 ^ 64 : Int)).toNat

/-- Go `uint64` subtraction `a - b` (wraps modulo `2^64`). -/
def u64sub (a b : Nat) : Nat := wrap64 ((a : Int) - (b : Int))

/-- One Grafana data point.  The source stores `[]float64{value, timestamp}`;
the two cells are modelled as named fields. -/
structure DataPt where
  v : ℚ
  ts : ℚ
deriving DecidableEq, Repr

/-- The `TimeSeriesDoc` from time_series_data.go. -/
structure TimeSeriesDoc where
  Target : String
  DataPoints : List DataPt
deriving DecidableEq, Repr

/-- Timestamp of `arr[i]` (`arr[i][1]` in the source); out-of-range reads
default to 0 where Go would panic (no theorem below depends on such a read). -/
def dpTs (arr : List DataPt) (i : Nat) : ℚ := ((arr.get? i).getD ⟨0, 0⟩).ts

/-- The binary-search loop of `findClosestDataPointIndex` (attribs.go),
with the loop variables `i`, `j` and the last computed `mid` explicit. -/
def findClosestAux (arr : List DataPt) (target : ℚ) (n : Nat) :
    Nat → Nat → Nat → Nat := fun i j mid =>
  if _h : i < j then
    let m := (i + j) / 2
    if dpTs arr m = target then m
    else if target < dpTs arr m then
      if 0 < m ∧ dpTs arr (m - 1) < target then
        if dpTs arr m ≤ target - dpTs arr (m - 1) then m else m - 1
      else findClosestAux arr target n i m m
    else
      if m < n - 1 ∧ target < dpTs arr (m + 1) then
        if dpTs arr m ≤ target - dpTs arr (m - 1) then m else m - 1
      else findClosestAux arr target n (m + 1) j m
  else mid
termination_by i j _ => j - i
decreasing_by
  · omega
  · omega

/-- The `findClosestDataPointIndex` from attribs.go. -/
def findClosestDataPointIndex (arr : List DataPt) (target : ℚ) : Nat :=
  let n := arr.length
  if target ≤ dpTs arr 0 then 0
  else if dpTs arr (n - 1) ≤ target then n - 1
  else findClosestAux arr target n 0 n 0

/-- The `maxPoints` in `FilterTimeSeriesData`: "max data points to return to
Grafana". -/
def maxPoints : Nat := 1800

/-- Go slice expression `l[lo:hi]`; totalized with `take`/`drop` (Go panics
when `lo > hi`, which no theorem below exercises). -/
def goSlice (l : List DataPt) (lo hi : Nat) : List DataPt :=
  (l.drop lo).take (hi - lo)

/-- The bucket loop `for i := 0; i < len(points); i += bucketSize` of
`FilterTimeSeriesData`, returning the successive buckets `points[i:i+bs]`.
`bs = 0` cannot occur (the source forces `bucketSize >= 1`). -/
def chunkLoop (pts : List DataPt) (bs : Nat) : List (List DataPt) :=
  if _h : pts = [] ∨ bs = 0 then []
  else pts.take bs :: chunkLoop (pts.drop bs) bs
termination_by pts.length
decreasing_by
  push_neg at _h
  have : 0 < pts.length := List.length_pos.mpr _h.1
  simp only [List.length_drop]
  omega

/-- Average-and-last-timestamp aggregation of one bucket
(`sum / len(bucket)`, `bucket[len(bucket)-1][1]`). -/
def bucketAvgPoint (bucket : List DataPt) : DataPt :=
  { v := (bucket.foldl (fun s dp => s + dp.v) 0) / (bucket.length : ℚ),
    ts := ((bucket.getLast?).getD ⟨0, 0⟩).ts }

/-- The `FilterTimeSeriesData` from attribs.go.  `fromMs`/`toMs` are the window
bounds already converted to epoch milliseconds
(`float64(t.UnixNano()/1000000)`). -/
def FilterTimeSeriesData (tsData : TimeSeriesDoc) (fromMs toMs : ℚ) :
    TimeSeriesDoc :=
  if tsData.DataPoints = [] then tsData
  else
    let data : TimeSeriesDoc := { Target := tsData.Target, DataPoints := [] }
    let fidx := findClosestDataPointIndex tsData.DataPoints fromMs
    let eidx := findClosestDataPointIndex tsData.DataPoints toMs
    let points := goSlice tsData.DataPoints fidx eidx
    if points = [] then data
    else if maxPoints < points.length then
      let bucketSize := max (points.length / maxPoints) 1
      { data with
        DataPoints :=
          ((chunkLoop points bucketSize).filter (fun b => !b.isEmpty)).map
            bucketAvgPoint }
    else { data with DataPoints := points }

/-- The `GetScoreByRange` from analytics (utils). -/
def GetScoreByRange (v low high : ℚ) : Int :=
  if v < low then 100
  else if high < v then 0
  else truncQ (100 * (1 - (v - low) / (high - low)))

/-! ## Block decoder (decoder/decode.go) -/

/-- The `PathSeparator` from decode.go. -/
def PathSeparator : String := "/"

/-- BSON values as traversed by `traverseDocElem` (decode.go).  The reference
document is already unmarshaled (`bson.Unmarshal` is mongo-driver library
code, outside this repository); numeric leaves carry the integer the source
converts with `uint64(value)`.  `f64` holds an integral float (FTDC metric
floats are integral; Go's `uint64(float64)` agrees with `wrap64` there). -/
inductive BsonValue where
  | arr (elems : List BsonValue)
  | doc (elems : List (String × BsonValue))
  | bool (b : Bool)
  | i32 (v : Int)
  | i64 (v : Int)
  | f64 (v : Int)
  | dt (v : Int)
  | tsVal
  | oid
  | str (s : String)

/-- Decoder traversal state: the traversal-order attribute list and the
`DataPointsMap` (Go `map[string][]uint64`, modelled as an association list
with unique keys). -/
abbrev AttrMap := List (String × List Nat)

/-- The `dp.DataPointsMap[attr]` (nil slice for an absent key). -/
def alGet (mp : AttrMap) (k : String) : List Nat :=
  match mp with
  | [] => []
  | (k', l) :: rest => if k' = k then l else alGet rest k

/-- Go map store `mp[k] = l`: replace the existing entry, insert otherwise. -/
def alPut (mp : AttrMap) (k : String) (l : List Nat) : AttrMap :=
  match mp with
  | [] => [(k, l)]
  | (k', l') :: rest => if k' = k then (k, l) :: rest else (k', l') :: alPut rest k l

/-- The `addAttribute` from decode.go: always append the key to the traversal
list; add the seed slice to the map only when the key is new (duplicate BSON
keys share one series). -/
def addAttribute (st : List String × AttrMap) (key : String) (val : Nat) :
    List String × AttrMap :=
  (st.1 ++ [key],
   if (st.2.find? (fun kv => kv.1 == key)).isSome then st.2
   else st.2 ++ [(key, [val])])

mutual
/-- The `traverseDocElem` from decode.go (the `addAttribute` revision). -/
def traverseDocElem (st : List String × AttrMap) (docElem : BsonValue)
    (parentPath : String) : List String × AttrMap :=
  match docElem with
  | .arr elems => traverseArr st elems parentPath 0
  | .bool b => addAttribute st parentPath (if b then 1 else 0)
  | .doc elems => traverseDocList st elems parentPath
  | .tsVal =>
      let st1 := addAttribute st (parentPath ++ "/t") 0
      addAttribute st1 (parentPath ++ "/i") 0
  | .oid => st
  | .str _ => st
  | .f64 v => addAttribute st parentPath (wrap64 v)
  | .i32 v => addAttribute st parentPath (wrap64 v)
  | .i64 v => addAttribute st parentPath (wrap64 v)
  | .dt v => addAttribute st parentPath (wrap64 v)

/-- The `bson.A` branch: recurse with path suffix `/<index>`. -/
def traverseArr (st : List String × AttrMap) (elems : List BsonValue)
    (parentPath : String) (i : Nat) : List String × AttrMap :=
  match elems with
  | [] => st
  | e :: rest =>
      traverseArr (traverseDocElem st e (parentPath ++ PathSeparator ++ toString i))
        rest parentPath (i + 1)

/-- The `bson.D` branch: recurse with path suffix `/<fieldName>` (no
separator at the root). -/
def traverseDocList (st : List String × AttrMap)
    (elems : List (String × BsonValue)) (parentPath : String) :
    List String × AttrMap :=
  match elems with
  | [] => st
  | (key, value) :: rest =>
      let name := if parentPath = "" then key else parentPath ++ PathSeparator ++ key
      traverseDocList (traverseDocElem st value name) rest parentPath
end

/-- Modelled from the spec: the decoder helper `Uvarint` (its defining file
is absent from the repository sources).  Per the spec ("each value is
`varint` (unsigned LEB128-style) encoded"): little-endian base-128, low
seven bits per byte, high bit marks continuation; an exhausted stream
yields 0. -/
def Uvarint : List Nat → Nat × List Nat
  | [] => (0, [])
  | b :: rest =>
      if b < 128 then (b, rest)
      else
        let (v, r) := Uvarint rest
        (b % 128 + 128 * v, r)

/-- Delta-stream reader state: remaining bytes and the pending zero-run
count (`zerosLeft` persists across attribute rows in the source). -/
structure DeltaState where
  bytes : List Nat
  zerosLeft : Nat
deriving DecidableEq, Repr

/-- One iteration of the delta loop body: consume a zero-run entry or read a
varint (a literal 0 is followed by a second varint giving the number of
additional implicit zero deltas). -/
def readDelta (s : DeltaState) : Nat × DeltaState :=
  if s.zerosLeft ≠ 0 then (0, { s with zerosLeft := s.zerosLeft - 1 })
  else
    let (delta, rest) := Uvarint s.bytes
    if delta = 0 then
      let (z, rest2) := Uvarint rest
      (0, ⟨rest2, z⟩)
    else (delta, ⟨rest, s.zerosLeft⟩)

/-- The inner `for j := 0; j < NumDeltas; j++` loop: reconstruct `n` running
values starting from `v` (`uint64` addition wraps). -/
def deltaChain : Nat → Nat → DeltaState → List Nat × DeltaState
  | 0, _, s => ([], s)
  | n + 1, v, s =>
      let (d, s1) := readDelta s
      let v1 := (v + d) % 2 ^ 64
      let (vals, s2) := deltaChain n v1 s1
      (v1 :: vals, s2)

/-- The outer `for _, attr := range attribsList` loop of `decode`: extend
each attribute's series (shared by duplicate keys) with `numDeltas`
reconstructed values, threading the byte stream and zero-run state. -/
def deltaLoop (mp : AttrMap) (attrs : List String) (nd : Nat) (s : DeltaState) :
    AttrMap :=
  match attrs with
  | [] => mp
  | attr :: rest =>
      let lst := alGet mp attr
      let v := lst.headD 0
      let (vals, s') := deltaChain nd v s
      deltaLoop (alPut mp attr (lst ++ vals)) rest nd s'

/-- The `MetricsData` from decode.go.  `attribsList` is the local traversal
list of `decode`, exposed because the claims quantify over it;
`Block` (the raw reference-document bytes) is not modelled. -/
structure MetricsData where
  NumDeltas : Nat
  DataPointsMap : AttrMap
  attribsList : List String
deriving DecidableEq, Repr

/-- The `decode` from decode.go, modelled at the post-`bson.Unmarshal`
boundary: the reference document arrives as a `BsonValue`, and the header
fields `numAttribs`/`numDeltas` (read by `GetUint32` from the length
prefix) arrive as arguments, followed by the delta byte stream.  Failure
(`inconsistent FTDC data`) is `none`. -/
def decode (docElem : BsonValue) (numAttribs numDeltas : Nat)
    (deltaBytes : List Nat) : Option MetricsData :=
  let st := traverseDocElem ([], []) docElem ""
  if st.1.length ≠ numAttribs then none
  else
    some { NumDeltas := numDeltas,
           DataPointsMap := deltaLoop st.2 st.1 numDeltas ⟨deltaBytes, 0⟩,
           attribsList := st.1 }

/-! ## Typed sample records.

The Go struct definitions (`ServerStatusDoc` and friends) live in a file
absent from the repository sources; their shapes and `uint64` field types
are reconstructed from the assignments in attribs.go (`attr.get` returns
`uint64`) and the reads in time_series_data.go.  `time.Time` fields are
carried as epoch milliseconds (`LocalTimeMs`, `StartMs`, `DateMs`), the
unit in which the source both builds them (`time.Unix(0,
int64(time.Millisecond)*int64(ms))`) and reads them back
(`UnixNano()/1000000`). -/

structure MemDoc where
  Resident : Nat := 0
  Virtual : Nat := 0
deriving DecidableEq, Repr

structure NetworkDoc where
  BytesIn : Nat := 0
  BytesOut : Nat := 0
  NumRequests : Nat := 0
  PhysicalBytesIn : Nat := 0
  PhysicalBytesOut : Nat := 0
deriving DecidableEq, Repr

structure ConnectionsDoc where
  Current : Nat := 0
  TotalCreated : Nat := 0
  Available : Nat := 0
  Active : Nat := 0
deriving DecidableEq, Repr

structure ExtraInfoDoc where
  PageFaults : Nat := 0
deriving DecidableEq, Repr

structure ClientsDoc where
  Readers : Nat := 0
  Writers : Nat := 0
deriving DecidableEq, Repr

structure GlobalLockDoc where
  ActiveClients : ClientsDoc := {}
  CurrentQueue : ClientsDoc := {}
deriving DecidableEq, Repr

structure QueryExecutorDoc where
  Scanned : Nat := 0
  ScannedObjects : Nat := 0
deriving DecidableEq, Repr

structure OperationDoc where
  ScanAndOrder : Nat := 0
deriving DecidableEq, Repr

structure MetricsSubDoc where
  QueryExecutor : QueryExecutorDoc := {}
  Operation : OperationDoc := {}
deriving DecidableEq, Repr

structure LatencyDoc where
  Latency : Nat := 0
  Ops : Nat := 0
deriving DecidableEq, Repr

structure OpLatenciesDoc where
  Commands : LatencyDoc := {}
  Reads : LatencyDoc := {}
  Writes : LatencyDoc := {}
deriving DecidableEq, Repr

structure OpCountersDoc where
  Command : Nat := 0
  Delete : Nat := 0
  Getmore : Nat := 0
  Insert : Nat := 0
  Query : Nat := 0
  Update : Nat := 0
deriving DecidableEq, Repr

structure BlockManagerDoc where
  BytesRead : Nat := 0
  BytesWritten : Nat := 0
  BytesWrittenCheckPoint : Nat := 0
deriving DecidableEq, Repr

structure WTCacheDoc where
  CurrentlyInCache : Nat := 0
  MaxBytesConfigured : Nat := 0
  ModifiedPagesEvicted : Nat := 0
  BytesReadIntoCache : Nat := 0
  BytesWrittenFromCache : Nat := 0
  TrackedDirtyBytes : Nat := 0
  UnmodifiedPagesEvicted : Nat := 0
deriving DecidableEq, Repr

structure DataHandleDoc where
  Active : Nat := 0
deriving DecidableEq, Repr

structure TicketDoc where
  Available : Nat := 0
deriving DecidableEq, Repr

structure ConcurrentTransactionsDoc where
  Read : TicketDoc := {}
  Write : TicketDoc := {}
deriving DecidableEq, Repr

structure WiredTigerDoc where
  BlockManager : BlockManagerDoc := {}
  Cache : WTCacheDoc := {}
  DataHandle : DataHandleDoc := {}
  ConcurrentTransactions : ConcurrentTransactionsDoc := {}
deriving DecidableEq, Repr

structure QueueTicketsDoc where
  Out : Nat := 0
  Available : Nat := 0
  TotalTickets : Nat := 0
deriving DecidableEq, Repr

structure QueuesExecutionDoc where
  Read : QueueTicketsDoc := {}
  Write : QueueTicketsDoc := {}
deriving DecidableEq, Repr

structure QueuesDoc where
  Execution : QueuesExecutionDoc := {}
deriving DecidableEq, Repr

structure TransactionsDoc where
  CurrentActive : Nat := 0
  CurrentInactive : Nat := 0
  CurrentOpen : Nat := 0
  TotalAborted : Nat := 0
  TotalCommitted : Nat := 0
  TotalStarted : Nat := 0
deriving DecidableEq, Repr

structure TcmallocGenericDoc where
  BytesInUseByApp : Nat := 0
  CurrentAllocatedBytes : Nat := 0
  HeapSize : Nat := 0
  PhysicalMemoryUsed : Nat := 0
deriving DecidableEq, Repr

structure TcmallocDoc where
  Generic : TcmallocGenericDoc := {}
deriving DecidableEq, Repr

structure FlowControlDoc where
  TargetRateLimit : Nat := 0
  TimeAcquiringMicros : Nat := 0
  IsLaggedCount : Nat := 0
deriving DecidableEq, Repr

structure ServerStatusDoc where
  LocalTimeMs : Int := 0
  Uptime : Nat := 0
  Mem : MemDoc := {}
  Network : NetworkDoc := {}
  Connections : ConnectionsDoc := {}
  ExtraInfo : ExtraInfoDoc := {}
  GlobalLock : GlobalLockDoc := {}
  Metrics : MetricsSubDoc := {}
  OpLatencies : OpLatenciesDoc := {}
  OpCounters : OpCountersDoc := {}
  WiredTiger : WiredTigerDoc := {}
  Queues : QueuesDoc := {}
  Transactions : TransactionsDoc := {}
  Tcmalloc : TcmallocDoc := {}
  FlowControl : FlowControlDoc := {}
deriving DecidableEq, Repr

structure CPUDoc where
  IOWaitMS : Nat := 0
  IdleMS : Nat := 0
  NiceMS : Nat := 0
  SoftirqMS : Nat := 0
  StealMS : Nat := 0
  SystemMS : Nat := 0
  UserMS : Nat := 0
deriving DecidableEq, Repr

structure DiskMetrics where
  ReadTimeMS : Nat := 0
  WriteTimeMS : Nat := 0
  IOQueuedMS : Nat := 0
  IOTimeMS : Nat := 0
  Reads : Nat := 0
  Writes : Nat := 0
  IOInProgress : Nat := 0
deriving DecidableEq, Repr

structure SystemMetricsDoc where
  StartMs : Int := 0
  CPU : CPUDoc := {}
  Disks : List (String × DiskMetrics) := []
deriving DecidableEq, Repr

structure ReplMember where
  Name : String := ""
  State : Int := 0
  OptimeT : Int := 0
deriving DecidableEq, Repr

structure ReplSetStatusDoc where
  DateMs : Int := 0
  Members : List ReplMember := []
deriving DecidableEq, Repr

/-! ## Attribute projector (attribs.go) -/

namespace Attribs

/-- The `(attr *Attribs) get` from attribs.go: the attribute's value at sample
offset `i`, defaulting to 0 when the path is absent or `i` is out of range
(the `IsNaN` guard never fires for a `uint64`-sourced float). -/
def get (attribsMap : AttrMap) (key : String) (i : Nat) : Nat :=
  let arr := alGet attribsMap key
  if i < arr.length then arr.getD i 0 else 0

end Attribs

/-- Go `int64(u)` for a `uint64` operand (two's-complement
reinterpretation). -/
def i64cast (u : Nat) : Int := if u < 2 ^ 63 then (u : Int) else (u : Int) - 2 ^ 64

/-- The `diskMetricsPrefix` ("systemMetrics/disks/") from attribs.go. -/
def diskMetricsRoot : String := "systemMetrics/disks/"

/-- The `diskKeyInfo` from attribs.go. -/
structure DiskKeyInfo where
  fullKey : String
  diskName : String
  statName : String
deriving DecidableEq, Repr

/-- The disk-key pre-parse in `NewAttribs`: keys under
`systemMetrics/disks/<device>/<stat>` with a nonempty `<device>` part.
(Go iterates the map in unspecified order; the association-list order is
used here — per-device results below do not depend on it.) -/
def parseDiskKeys (mp : AttrMap) : List DiskKeyInfo :=
  mp.filterMap (fun kv =>
    let key := kv.1
    if key.startsWith diskMetricsRoot then
      let suffix := key.drop diskMetricsRoot.length
      let chars := suffix.toList
      match chars.findIdx? (fun c => c = '/') with
      | some slashIdx =>
          if 0 < slashIdx then
            some ⟨key, String.mk (chars.take slashIdx),
                  String.mk (chars.drop (slashIdx + 1))⟩
          else none
      | none => none
    else none)

/-- Association-list read with the Go zero value for absent keys
(`m := sm.Disks[dk.diskName]`). -/
def diskGet (m : List (String × DiskMetrics)) (k : String) : DiskMetrics :=
  match m with
  | [] => {}
  | (k', v) :: rest => if k' = k then v else diskGet rest k

/-- Go map store for the per-device metrics. -/
def diskPut (m : List (String × DiskMetrics)) (k : String) (v : DiskMetrics) :
    List (String × DiskMetrics) :=
  match m with
  | [] => [(k, v)]
  | (k', v') :: rest =>
      if k' = k then (k, v) :: rest else (k', v') :: diskPut rest k v

/-- The `GetServerStatusDataPoints` from attribs.go. -/
def GetServerStatusDataPoints (mp : AttrMap) (i : Nat) : ServerStatusDoc :=
  { LocalTimeMs := i64cast (Attribs.get mp "serverStatus/localTime" i),
    Uptime := Attribs.get mp "serverStatus/uptime" i,
    Mem := { Resident := Attribs.get mp "serverStatus/mem/resident" i,
             Virtual := Attribs.get mp "serverStatus/mem/virtual" i },
    Network :=
      { BytesIn := Attribs.get mp "serverStatus/network/bytesIn" i,
        BytesOut := Attribs.get mp "serverStatus/network/bytesOut" i,
        NumRequests := Attribs.get mp "serverStatus/network/numRequests" i,
        PhysicalBytesIn := Attribs.get mp "serverStatus/network/physicalBytesIn" i,
        PhysicalBytesOut := Attribs.get mp "serverStatus/network/physicalBytesOut" i },
    Connections :=
      { Current := Attribs.get mp "serverStatus/connections/current" i,
        TotalCreated := Attribs.get mp "serverStatus/connections/totalCreated" i,
        Available := Attribs.get mp "serverStatus/connections/available" i,
        Active := Attribs.get mp "serverStatus/connections/active" i },
    ExtraInfo := { PageFaults := Attribs.get mp "serverStatus/extra_info/page_faults" i },
    GlobalLock :=
      { ActiveClients :=
          { Readers := Attribs.get mp "serverStatus/globalLock/activeClients/readers" i,
            Writers := Attribs.get mp "serverStatus/globalLock/activeClients/writers" i },
        CurrentQueue :=
          { Readers := Attribs.get mp "serverStatus/globalLock/currentQueue/readers" i,
            Writers := Attribs.get mp "serverStatus/globalLock/currentQueue/writers" i } },
    Metrics :=
      { QueryExecutor :=
          { Scanned := Attribs.get mp "serverStatus/metrics/queryExecutor/scanned" i,
            ScannedObjects := Attribs.get mp "serverStatus/metrics/queryExecutor/scannedObjects" i },
        Operation := { ScanAndOrder := Attribs.get mp "serverStatus/metrics/operation/scanAndOrder" i } },
    OpLatencies :=
      { Commands :=
          { Latency := Attribs.get mp "serverStatus/opLatencies/commands/latency" i,
            Ops := Attribs.get mp "serverStatus/opLatencies/commands/ops" i },
        Reads :=
          { Latency := Attribs.get mp "serverStatus/opLatencies/reads/latency" i,
            Ops := Attribs.get mp "serverStatus/opLatencies/reads/ops" i },
        Writes :=
          { Latency := Attribs.get mp "serverStatus/opLatencies/writes/latency" i,
            Ops := Attribs.get mp "serverStatus/opLatencies/writes/ops" i } },
    OpCounters :=
      { Command := Attribs.get mp "serverStatus/opcounters/command" i,
        Delete := Attribs.get mp "serverStatus/opcounters/delete" i,
        Getmore := Attribs.get mp "serverStatus/opcounters/getmore" i,
        Insert := Attribs.get mp "serverStatus/opcounters/insert" i,
        Query := Attribs.get mp "serverStatus/opcounters/query" i,
        Update := Attribs.get mp "serverStatus/opcounters/update" i },
    WiredTiger :=
      { BlockManager :=
          { BytesRead := Attribs.get mp "serverStatus/wiredTiger/block-manager/bytes read" i,
            BytesWritten := Attribs.get mp "serverStatus/wiredTiger/block-manager/bytes written" i,
            BytesWrittenCheckPoint := Attribs.get mp "serverStatus/wiredTiger/block-manager/bytes written for checkpoint" i },
        Cache :=
          { CurrentlyInCache := Attribs.get mp "serverStatus/wiredTiger/cache/bytes currently in the cache" i,
            MaxBytesConfigured := Attribs.get mp "serverStatus/wiredTiger/cache/maximum bytes configured" i,
            ModifiedPagesEvicted := Attribs.get mp "serverStatus/wiredTiger/cache/modified pages evicted" i,
            BytesReadIntoCache := Attribs.get mp "serverStatus/wiredTiger/cache/bytes read into cache" i,
            BytesWrittenFromCache := Attribs.get mp "serverStatus/wiredTiger/cache/bytes written from cache" i,
            TrackedDirtyBytes := Attribs.get mp "serverStatus/wiredTiger/cache/tracked dirty bytes in the cache" i,
            UnmodifiedPagesEvicted := Attribs.get mp "serverStatus/wiredTiger/cache/unmodified pages evicted" i },
        DataHandle := { Active := Attribs.get mp "serverStatus/wiredTiger/data-handle/connection data handles currently active" i },
        ConcurrentTransactions :=
          { Read := { Available := Attribs.get mp "serverStatus/wiredTiger/concurrentTransactions/read/available" i },
            Write := { Available := Attribs.get mp "serverStatus/wiredTiger/concurrentTransactions/write/available" i } } },
    Queues :=
      { Execution :=
          { Read :=
              { Out := Attribs.get mp "serverStatus/queues/execution/read/out" i,
                Available := Attribs.get mp "serverStatus/queues/execution/read/available" i,
                TotalTickets := Attribs.get mp "serverStatus/queues/execution/read/totalTickets" i },
            Write :=
              { Out := Attribs.get mp "serverStatus/queues/execution/write/out" i,
                Available := Attribs.get mp "serverStatus/queues/execution/write/available" i,
                TotalTickets := Attribs.get mp "serverStatus/queues/execution/write/totalTickets" i } } },
    Transactions :=
      { CurrentActive := Attribs.get mp "serverStatus/transactions/currentActive" i,
        CurrentInactive := Attribs.get mp "serverStatus/transactions/currentInactive" i,
        CurrentOpen := Attribs.get mp "serverStatus/transactions/currentOpen" i,
        TotalAborted := Attribs.get mp "serverStatus/transactions/totalAborted" i,
        TotalCommitted := Attribs.get mp "serverStatus/transactions/totalCommitted" i,
        TotalStarted := Attribs.get mp "serverStatus/transactions/totalStarted" i },
    Tcmalloc :=
      { Generic :=
          { BytesInUseByApp := Attribs.get mp "serverStatus/tcmalloc/generic/bytes_in_use_by_app" i,
            CurrentAllocatedBytes := Attribs.get mp "serverStatus/tcmalloc/generic/current_allocated_bytes" i,
            HeapSize := Attribs.get mp "serverStatus/tcmalloc/generic/heap_size" i,
            PhysicalMemoryUsed := Attribs.get mp "serverStatus/tcmalloc/generic/physical_memory_used" i } },
    FlowControl :=
      { TargetRateLimit := Attribs.get mp "serverStatus/flowControl/targetRateLimit" i,
        TimeAcquiringMicros := Attribs.get mp "serverStatus/flowControl/timeAcquiringMicros" i,
        IsLaggedCount := Attribs.get mp "serverStatus/flowControl/isLaggedCount" i } }

/-- The `GetSystemMetricsDataPoints` from attribs.go (the `diskKeys` pre-parse
of `NewAttribs` is recomputed per call here; it is a pure function of the
map). -/
def GetSystemMetricsDataPoints (mp : AttrMap) (i : Nat) : SystemMetricsDoc :=
  let diskKeys := parseDiskKeys mp
  { StartMs := i64cast (Attribs.get mp "serverStatus/localTime" i),
    CPU :=
      { IdleMS := Attribs.get mp "systemMetrics/cpu/idle_ms" i,
        UserMS := Attribs.get mp "systemMetrics/cpu/user_ms" i,
        IOWaitMS := Attribs.get mp "systemMetrics/cpu/iowait_ms" i,
        NiceMS := Attribs.get mp "systemMetrics/cpu/nice_ms" i,
        SoftirqMS := Attribs.get mp "systemMetrics/cpu/softirq_ms" i,
        StealMS := Attribs.get mp "systemMetrics/cpu/steal_ms" i,
        SystemMS := Attribs.get mp "systemMetrics/cpu/system_ms" i },
    Disks := diskKeys.foldl (fun acc dk =>
      let m := diskGet acc dk.diskName
      let upd : Option DiskMetrics :=
        if dk.statName = "read_time_ms" then some { m with ReadTimeMS := Attribs.get mp dk.fullKey i }
        else if dk.statName = "write_time_ms" then some { m with WriteTimeMS := Attribs.get mp dk.fullKey i }
        else if dk.statName = "io_queued_ms" then some { m with IOQueuedMS := Attribs.get mp dk.fullKey i }
        else if dk.statName = "io_time_ms" then some { m with IOTimeMS := Attribs.get mp dk.fullKey i }
        else if dk.statName = "reads" then some { m with Reads := Attribs.get mp dk.fullKey i }
        else if dk.statName = "writes" then some { m with Writes := Attribs.get mp dk.fullKey i }
        else if dk.statName = "io_in_progress" then some { m with IOInProgress := Attribs.get mp dk.fullKey i }
        else none
      match upd with
      | some mm => diskPut acc dk.diskName mm
      | none => acc) [] }

/-- The iteration space of `for i := 0; i < int(v.NumDeltas); i++` in
`readDiagnosticFile` (diagnostic.go): the sample offsets that are projected
into typed records. -/
def sampleIndices (v : MetricsData) : List Nat := List.range v.NumDeltas

/-- The block loop of `readDiagnosticFile` (diagnostic.go): every decoded
block contributes one `ReplSetStatusDoc` (from its reference document,
not modelled) and, for each sample offset in `sampleIndices`, one
server-status and one system-metrics record. -/
def readDiagnosticFileSamples (blocks : List MetricsData) :
    List ServerStatusDoc × List SystemMetricsDoc :=
  (blocks.flatMap (fun v =>
      (sampleIndices v).map (fun i => GetServerStatusDataPoints v.DataPointsMap i)),
   blocks.flatMap (fun v =>
      (sampleIndices v).map (fun i => GetSystemMetricsDataPoints v.DataPointsMap i)))

/-! ## Time-series deriver (time_series_data.go) -/

/-- The `dataPoint` from time_series_data.go: a `[value, timestamp]` point with
negative values clamped to zero before storage. -/
def dataPoint (v t : ℚ) : DataPt := if v < 0 then ⟨0, t⟩ else ⟨v, t⟩

def serverStatusChartsLegends : List String :=
  ["mem_resident", "mem_virtual", "mem_page_faults",
   "conns_active", "conns_available", "conns_current", "conns_created/s",
   "latency_read", "latency_write", "latency_command",
   "net_in", "net_out", "net_requests", "net_physical_in", "net_physical_out",
   "ops_query", "ops_insert", "ops_update", "ops_delete", "ops_getmore", "ops_command",
   "q_active_read", "q_active_write", "q_queued_read", "q_queued_write",
   "scan_keys", "scan_objects", "scan_sort"]

def wiredTigerChartsLegends : List String :=
  ["wt_blkmgr_read", "wt_blkmgr_written", "wt_blkmgr_written_checkpoint",
   "wt_cache_max", "wt_cache_used", "wt_cache_dirty",
   "wt_modified_evicted", "wt_unmodified_evicted", "wt_cache_read_in", "wt_cache_written_from",
   "wt_dhandles_active", "ticket_avail_read", "ticket_avail_write"]

def queuesChartsLegends : List String :=
  ["queues_read_out", "queues_read_available", "queues_read_total",
   "queues_write_out", "queues_write_available", "queues_write_total"]

def transactionsChartsLegends : List String :=
  ["txn_active", "txn_inactive", "txn_open",
   "txn_aborted/s", "txn_committed/s", "txn_started/s"]

def tcmallocChartsLegends : List String :=
  ["tcmalloc_in_use", "tcmalloc_allocated", "tcmalloc_heap", "tcmalloc_physical"]

def flowControlChartsLegends : List String :=
  ["flowctl_rate_limit", "flowctl_acquiring_us", "flowctl_lagged_count"]

def systemMetricsChartsLegends : List String :=
  ["cpu_idle", "cpu_iowait", "cpu_nice", "cpu_softirq", "cpu_steal", "cpu_system", "cpu_user",
   "disks_utils", "disks_iops", "io_in_progress", "read_time_ms", "write_time_ms", "io_queued_ms"]

def replSetChartsLegends : List String := ["replication_lags"]

/-- The `map[string]TimeSeriesDoc` values threaded through the deriver,
modelled as an association list keyed by legend. -/
abbrev TSMap := List (String × TimeSeriesDoc)

/-- The `initTimeSeriesMap` from time_series_data.go. -/
def initTimeSeriesMap (legends : List String) : TSMap :=
  legends.map (fun legend => (legend, ({ Target := legend, DataPoints := [] } : TimeSeriesDoc)))

/-- The `ts[legend].DataPoints = append(ts[legend].DataPoints, p)`: extend the
series of an existing legend (every appended legend is pre-registered by
`initTimeSeriesMap` in the source, so the absent-key case cannot occur). -/
def tsAppend : TSMap → String → DataPt → TSMap
  | [], _, _ => []
  | (k', d) :: rest, k, p =>
      if k' = k then (k', { d with DataPoints := d.DataPoints ++ [p] }) :: rest
      else (k', d) :: tsAppend rest k p

/-- A run of consecutive `append(..., dataPoint(v, t))` statements sharing
one timestamp, keyed by legend. -/
def applyUpdates (m : TSMap) (t : ℚ) (us : List (String × ℚ)) : TSMap :=
  us.foldl (fun acc kv => tsAppend acc kv.1 (dataPoint kv.2 t)) m

/-- Association-list lookup of a legend's data points. -/
def tsFind (m : TSMap) (k : String) : List DataPt :=
  match m with
  | [] => []
  | (k', d) :: rest => if k' = k then d.DataPoints else tsFind rest k

/-- The `mb` from time_series_data.go. -/
def mbConst : ℚ := 1024 * 1024

/-- The `gb` from time_series_data.go. -/
def gbConst : ℚ := 1024 * 1024 * 1024

/-- The `allLegends` assembled in `getAllServerStatusTimeSeriesDoc`. -/
def allLegends : List String :=
  serverStatusChartsLegends ++ wiredTigerChartsLegends ++ queuesChartsLegends ++
    transactionsChartsLegends ++ tcmallocChartsLegends ++ flowControlChartsLegends

/-- The gauge appends of one loop iteration of
`getAllServerStatusTimeSeriesDoc` (no previous sample needed), in source
order. -/
def gaugeUpdates (stat : ServerStatusDoc) : List (String × ℚ) :=
  let r : ℚ := if 0 < stat.OpLatencies.Reads.Ops then
    (stat.OpLatencies.Reads.Latency : ℚ) / (stat.OpLatencies.Reads.Ops : ℚ) / 1000 else 0
  let w : ℚ := if 0 < stat.OpLatencies.Writes.Ops then
    (stat.OpLatencies.Writes.Latency : ℚ) / (stat.OpLatencies.Writes.Ops : ℚ) / 1000 else 0
  let c : ℚ := if 0 < stat.OpLatencies.Commands.Ops then
    (stat.OpLatencies.Commands.Latency : ℚ) / (stat.OpLatencies.Commands.Ops : ℚ) / 1000 else 0
  [("mem_resident", (stat.Mem.Resident : ℚ) / 1024),
   ("mem_virtual", (stat.Mem.Virtual : ℚ) / 1024),
   ("conns_active", (stat.Connections.Active : ℚ)),
   ("conns_available", (stat.Connections.Available : ℚ)),
   ("conns_current", (stat.Connections.Current : ℚ)),
   ("q_active_read", (stat.GlobalLock.ActiveClients.Readers : ℚ)),
   ("q_active_write", (stat.GlobalLock.ActiveClients.Writers : ℚ)),
   ("q_queued_read", (stat.GlobalLock.CurrentQueue.Readers : ℚ)),
   ("q_queued_write", (stat.GlobalLock.CurrentQueue.Writers : ℚ)),
   ("latency_read", r),
   ("latency_write", w),
   ("latency_command", c),
   ("wt_cache_max", (stat.WiredTiger.Cache.MaxBytesConfigured : ℚ) / gbConst),
   ("wt_cache_used", (stat.WiredTiger.Cache.CurrentlyInCache : ℚ) / gbConst),
   ("wt_cache_dirty", (stat.WiredTiger.Cache.TrackedDirtyBytes : ℚ) / gbConst),
   ("wt_dhandles_active", (stat.WiredTiger.DataHandle.Active : ℚ)),
   ("ticket_avail_read", (stat.WiredTiger.ConcurrentTransactions.Read.Available : ℚ)),
   ("ticket_avail_write", (stat.WiredTiger.ConcurrentTransactions.Write.Available : ℚ)),
   ("queues_read_out", (stat.Queues.Execution.Read.Out : ℚ)),
   ("queues_read_available", (stat.Queues.Execution.Read.Available : ℚ)),
   ("queues_read_total", (stat.Queues.Execution.Read.TotalTickets : ℚ)),
   ("queues_write_out", (stat.Queues.Execution.Write.Out : ℚ)),
   ("queues_write_available", (stat.Queues.Execution.Write.Available : ℚ)),
   ("queues_write_total", (stat.Queues.Execution.Write.TotalTickets : ℚ)),
   ("txn_active", (stat.Transactions.CurrentActive : ℚ)),
   ("txn_inactive", (stat.Transactions.CurrentInactive : ℚ)),
   ("txn_open", (stat.Transactions.CurrentOpen : ℚ)),
   ("tcmalloc_in_use", (stat.Tcmalloc.Generic.BytesInUseByApp : ℚ) / gbConst),
   ("tcmalloc_allocated", (stat.Tcmalloc.Generic.CurrentAllocatedBytes : ℚ) / gbConst),
   ("tcmalloc_heap", (stat.Tcmalloc.Generic.HeapSize : ℚ) / gbConst),
   ("tcmalloc_physical", (stat.Tcmalloc.Generic.PhysicalMemoryUsed : ℚ) / gbConst),
   ("flowctl_rate_limit", (stat.FlowControl.TargetRateLimit : ℚ))]

/-- The `seconds := math.Round(stat.LocalTime.Sub(pstat.LocalTime).Seconds())`,
floored at 1. -/
def elapsedSeconds (stat pstat : ServerStatusDoc) : ℚ :=
  let secs := roundHalfAway (((stat.LocalTimeMs - pstat.LocalTimeMs : Int) : ℚ) / 1000)
  if secs < 1 then 1 else (secs : ℚ)

/-- The delta-based appends of one loop iteration of
`getAllServerStatusTimeSeriesDoc` (executed only when `i > 0`), in source
order.  Counter differences are Go `uint64` subtractions and wrap. -/
def deltaUpdates (stat pstat : ServerStatusDoc) (seconds : ℚ) : List (String × ℚ) :=
  [("mem_page_faults", (u64sub stat.ExtraInfo.PageFaults pstat.ExtraInfo.PageFaults : ℚ) / seconds),
   ("conns_created/s", (u64sub stat.Connections.TotalCreated pstat.Connections.TotalCreated : ℚ) / seconds),
   ("net_in", (u64sub stat.Network.BytesIn pstat.Network.BytesIn : ℚ) / mbConst / seconds),
   ("net_out", (u64sub stat.Network.BytesOut pstat.Network.BytesOut : ℚ) / mbConst / seconds),
   ("net_requests", (u64sub stat.Network.NumRequests pstat.Network.NumRequests : ℚ) / seconds),
   ("net_physical_in", (u64sub stat.Network.PhysicalBytesIn pstat.Network.PhysicalBytesIn : ℚ) / mbConst / seconds),
   ("net_physical_out", (u64sub stat.Network.PhysicalBytesOut pstat.Network.PhysicalBytesOut : ℚ) / mbConst / seconds),
   ("ops_query", (u64sub stat.OpCounters.Query pstat.OpCounters.Query : ℚ) / seconds),
   ("ops_insert", (u64sub stat.OpCounters.Insert pstat.OpCounters.Insert : ℚ) / seconds),
   ("ops_update", (u64sub stat.OpCounters.Update pstat.OpCounters.Update : ℚ) / seconds),
   ("ops_delete", (u64sub stat.OpCounters.Delete pstat.OpCounters.Delete : ℚ) / seconds),
   ("ops_getmore", (u64sub stat.OpCounters.Getmore pstat.OpCounters.Getmore : ℚ) / seconds),
   ("ops_command", (u64sub stat.OpCounters.Command pstat.OpCounters.Command : ℚ) / seconds),
   ("scan_keys", (u64sub stat.Metrics.QueryExecutor.Scanned pstat.Metrics.QueryExecutor.Scanned : ℚ) / seconds),
   ("scan_objects", (u64sub stat.Metrics.QueryExecutor.ScannedObjects pstat.Metrics.QueryExecutor.ScannedObjects : ℚ) / seconds),
   ("scan_sort", (u64sub stat.Metrics.Operation.ScanAndOrder pstat.Metrics.Operation.ScanAndOrder : ℚ) / seconds),
   ("wt_blkmgr_read", (u64sub stat.WiredTiger.BlockManager.BytesRead pstat.WiredTiger.BlockManager.BytesRead : ℚ) / mbConst / seconds),
   ("wt_blkmgr_written", (u64sub stat.WiredTiger.BlockManager.BytesWritten pstat.WiredTiger.BlockManager.BytesWritten : ℚ) / mbConst / seconds),
   ("wt_blkmgr_written_checkpoint", (u64sub stat.WiredTiger.BlockManager.BytesWrittenCheckPoint pstat.WiredTiger.BlockManager.BytesWrittenCheckPoint : ℚ) / mbConst / seconds),
   ("wt_modified_evicted", (u64sub stat.WiredTiger.Cache.ModifiedPagesEvicted pstat.WiredTiger.Cache.ModifiedPagesEvicted : ℚ) / seconds),
   ("wt_unmodified_evicted", (u64sub stat.WiredTiger.Cache.UnmodifiedPagesEvicted pstat.WiredTiger.Cache.UnmodifiedPagesEvicted : ℚ) / seconds),
   ("wt_cache_read_in", (u64sub stat.WiredTiger.Cache.BytesReadIntoCache pstat.WiredTiger.Cache.BytesReadIntoCache : ℚ) / mbConst / seconds),
   ("wt_cache_written_from", (u64sub stat.WiredTiger.Cache.BytesWrittenFromCache pstat.WiredTiger.Cache.BytesWrittenFromCache : ℚ) / mbConst / seconds),
   ("txn_aborted/s", (u64sub stat.Transactions.TotalAborted pstat.Transactions.TotalAborted : ℚ) / seconds),
   ("txn_committed/s", (u64sub stat.Transactions.TotalCommitted pstat.Transactions.TotalCommitted : ℚ) / seconds),
   ("txn_started/s", (u64sub stat.Transactions.TotalStarted pstat.Transactions.TotalStarted : ℚ) / seconds),
   ("flowctl_acquiring_us", (u64sub stat.FlowControl.TimeAcquiringMicros pstat.FlowControl.TimeAcquiringMicros : ℚ) / seconds),
   ("flowctl_lagged_count", (u64sub stat.FlowControl.IsLaggedCount pstat.FlowControl.IsLaggedCount : ℚ) / seconds)]

/-- The main loop of `getAllServerStatusTimeSeriesDoc`.  `pstat` is the
previous list element (updated on every iteration, including skipped ones);
`isFirst` records `i == 0`.  A sample whose `Uptime` has not increased is
treated as a restart and contributes nothing. -/
def getAllSSLoop (m : TSMap) (pstat : ServerStatusDoc) (isFirst : Bool) :
    List ServerStatusDoc → TSMap
  | [] => m
  | stat :: rest =>
      if stat.Uptime ≤ pstat.Uptime then getAllSSLoop m stat false rest
      else
        let t : ℚ := (stat.LocalTimeMs : ℚ)
        let m1 := applyUpdates m t (gaugeUpdates stat)
        let m2 :=
          if isFirst then m1
          else applyUpdates m1 t (deltaUpdates stat pstat (elapsedSeconds stat pstat))
        getAllSSLoop m2 stat false rest

/-- The `getAllServerStatusTimeSeriesDoc` from time_series_data.go. -/
def getAllServerStatusTimeSeriesDoc (serverStatusList : List ServerStatusDoc) :
    TSMap :=
  if serverStatusList = [] then []
  else getAllSSLoop (initTimeSeriesMap allLegends) {} true serverStatusList

/-- The `DiskStats` from metrics.go (per-device derived series). -/
structure DiskStats where
  IOPS : TimeSeriesDoc := ⟨"", []⟩
  IOInProgress : TimeSeriesDoc := ⟨"", []⟩
  IOQueuedMS : TimeSeriesDoc := ⟨"", []⟩
  ReadTimeMS : TimeSeriesDoc := ⟨"", []⟩
  WriteTimeMS : TimeSeriesDoc := ⟨"", []⟩
  Utilization : TimeSeriesDoc := ⟨"", []⟩
deriving DecidableEq, Repr

/-- The `diskStats[k]` with the Go zero value for absent keys. -/
def dsGet (m : List (String × DiskStats)) (k : String) : DiskStats :=
  match m with
  | [] => {}
  | (k', v) :: rest => if k' = k then v else dsGet rest k

/-- Go map store `diskStats[k] = ds`. -/
def dsPut (m : List (String × DiskStats)) (k : String) (v : DiskStats) :
    List (String × DiskStats) :=
  match m with
  | [] => [(k, v)]
  | (k', v') :: rest =>
      if k' = k then (k, v) :: rest else (k', v') :: dsPut rest k v

/-- The `uint64` sum of the seven CPU counters (each Go addition wraps; the
composition equals one wrap of the full sum). -/
def cpuTotalMS (c : CPUDoc) : Nat :=
  (c.IOWaitMS + c.IdleMS + c.NiceMS + c.SoftirqMS + c.StealMS + c.SystemMS + c.UserMS) % 2 ^ 64

/-- The body of the `for k, disk := range stat.Disks` loop of one
`getSystemMetricsTimeSeriesDoc` iteration. -/
def smDiskStep (pstatDisks : List (String × DiskMetrics)) (t seconds : ℚ)
    (acc : List (String × DiskStats)) (kv : String × DiskMetrics) :
    List (String × DiskStats) :=
    let k := kv.1
    let disk := kv.2
    let pdisk := diskGet pstatDisks k
    let u : ℚ := 100 * (u64sub disk.IOTimeMS pdisk.IOTimeMS : ℚ) / 1000
    let iops : ℚ :=
      (u64sub ((disk.Reads + disk.Writes) % 2 ^ 64)
          ((pdisk.Reads + pdisk.Writes) % 2 ^ 64) : ℚ) / seconds
    let d0 := dsGet acc k
    let d1 : DiskStats :=
      { Utilization := { d0.Utilization with
          DataPoints := d0.Utilization.DataPoints ++ [dataPoint u t] },
        IOPS := { d0.IOPS with DataPoints := d0.IOPS.DataPoints ++ [dataPoint iops t] },
        IOInProgress := { d0.IOInProgress with
          DataPoints := d0.IOInProgress.DataPoints ++ [dataPoint (disk.IOInProgress : ℚ) t] },
        ReadTimeMS := { d0.ReadTimeMS with
          DataPoints := d0.ReadTimeMS.DataPoints ++
            [dataPoint (u64sub disk.ReadTimeMS pdisk.ReadTimeMS : ℚ) t] },
        WriteTimeMS := { d0.WriteTimeMS with
          DataPoints := d0.WriteTimeMS.DataPoints ++
            [dataPoint (u64sub disk.WriteTimeMS pdisk.WriteTimeMS : ℚ) t] },
        IOQueuedMS := { d0.IOQueuedMS with
          DataPoints := d0.IOQueuedMS.DataPoints ++
            [dataPoint (u64sub disk.IOQueuedMS pdisk.IOQueuedMS : ℚ) t] } }
    dsPut acc k d1

/-- The per-disk appends of one `getSystemMetricsTimeSeriesDoc` iteration. -/
def smDiskUpdates (ds : List (String × DiskStats)) (stat pstat : SystemMetricsDoc)
    (t seconds : ℚ) : List (String × DiskStats) :=
  stat.Disks.foldl (smDiskStep pstat.Disks t seconds) ds

/-- The CPU-ratio appends of one `getSystemMetricsTimeSeriesDoc` iteration.
`deltaTotalMS` is a float subtraction (it can be negative; a zero total is
replaced by 1), the per-category numerators are wrapped `uint64`
differences. -/
def smCPUUpdates (stat pstat : SystemMetricsDoc) : List (String × ℚ) :=
  let deltaTotal0 : ℚ := (cpuTotalMS stat.CPU : ℚ) - (cpuTotalMS pstat.CPU : ℚ)
  let deltaTotalMS := if deltaTotal0 = 0 then 1 else deltaTotal0
  [("cpu_idle", 100 * (u64sub stat.CPU.IdleMS pstat.CPU.IdleMS : ℚ) / deltaTotalMS),
   ("cpu_iowait", 100 * (u64sub stat.CPU.IOWaitMS pstat.CPU.IOWaitMS : ℚ) / deltaTotalMS),
   ("cpu_system", 100 * (u64sub stat.CPU.SystemMS pstat.CPU.SystemMS : ℚ) / deltaTotalMS),
   ("cpu_user", 100 * (u64sub stat.CPU.UserMS pstat.CPU.UserMS : ℚ) / deltaTotalMS),
   ("cpu_nice", 100 * (u64sub stat.CPU.NiceMS pstat.CPU.NiceMS : ℚ) / deltaTotalMS),
   ("cpu_steal", 100 * (u64sub stat.CPU.StealMS pstat.CPU.StealMS : ℚ) / deltaTotalMS),
   ("cpu_softirq", 100 * (u64sub stat.CPU.SoftirqMS pstat.CPU.SoftirqMS : ℚ) / deltaTotalMS)]

/-- The main loop of `getSystemMetricsTimeSeriesDoc` (the `i == 0` iteration
only seeds `pstat`). -/
def getSystemMetricsLoop (m : TSMap) (ds : List (String × DiskStats))
    (pstat : SystemMetricsDoc) : List SystemMetricsDoc → TSMap × List (String × DiskStats)
  | [] => (m, ds)
  | stat :: rest =>
      let t : ℚ := (stat.StartMs : ℚ)
      let seconds0 : ℚ := ((stat.StartMs - pstat.StartMs : Int) : ℚ) / 1000
      let seconds := if seconds0 < 1 then 1 else seconds0
      let ds1 := smDiskUpdates ds stat pstat t seconds
      let m1 := applyUpdates m t (smCPUUpdates stat pstat)
      getSystemMetricsLoop m1 ds1 stat rest

/-- The `getSystemMetricsTimeSeriesDoc` from time_series_data.go. -/
def getSystemMetricsTimeSeriesDoc (systemMetricsList : List SystemMetricsDoc) :
    TSMap × List (String × DiskStats) :=
  match systemMetricsList with
  | [] => (initTimeSeriesMap systemMetricsChartsLegends, [])
  | first :: rest =>
      getSystemMetricsLoop (initTimeSeriesMap systemMetricsChartsLegends) [] first rest

/-- Ascending insertion of one element, the building block of `sortBy`. -/
def insertSorted (le : α → α → Bool) (x : α) : List α → List α
  | [] => [x]
  | y :: t => if le x y then x :: y :: t else y :: insertSorted le x t

/-- Model of Go's `sort.Slice` with an ascending comparator (insertion
sort; Go's sort is unstable and its order on ties unspecified, but every
use below either compares by value only or treats ties interchangeably). -/
def sortBy (le : α → α → Bool) (l : List α) : List α :=
  l.foldr (insertSorted le) []

/-- The `TimeSeriesDoc` zero value (`x := replicationLags[hosts[i]]` on a
missing key). -/
def tsdGetD (m : TSMap) (k : String) : TimeSeriesDoc :=
  match m with
  | [] => ⟨"", []⟩
  | (k', d) :: rest => if k' = k then d else tsdGetD rest k

/-- Go map store `m[k] = d` for a legend-keyed series map. -/
def tsdPut (m : TSMap) (k : String) (d : TimeSeriesDoc) : TSMap :=
  match m with
  | [] => [(k, d)]
  | (k', d') :: rest =>
      if k' = k then (k, d) :: rest else (k', d') :: tsdPut rest k d

/-- The host-legend shortening in `getReplSetGetStatusTimeSeriesDoc`:
`name[0:index(".")] + name[lastIndex(":"):]`, or the full name when either
marker is missing. -/
def replLegend (name : String) : String :=
  let chars := name.toList
  let a? := chars.findIdx? (fun c => c = '.')
  let b? := (chars.reverse.findIdx? (fun c => c = ':')).map
    (fun r => chars.length - 1 - r)
  match a?, b? with
  | some a, some b => String.mk (chars.take a ++ chars.drop b)
  | _, _ => name

/-- The body of the positional-mapping rebuild loop: one `host-<n>` slot
and two (empty) registered legend series per member. -/
def replRebuildStep (acc : List String × TSMap) (ni : Nat × ReplMember) :
    List String × TSMap :=
  let n := ni.1
  let mbr := ni.2
  let hostname := "host-" ++ toString n
  let legend := replLegend mbr.Name
  let tsd1 := tsdPut acc.2 legend ⟨legend, []⟩
  let node := "repl_" ++ toString n
  (acc.1 ++ [hostname], tsdPut tsd1 node ⟨node, []⟩)

/-- The positional-mapping rebuild branch: refill `hosts` with
`host-<n>` slots and register (empty) per-member legend series. -/
def replRebuild (tsd : TSMap) (members : List ReplMember) : List String × TSMap :=
  members.enum.foldl replRebuildStep ([], tsd)

/-- The body of the per-member lag loop: SECONDARY lag is
`primaryOptime - memberOptime`, PRIMARY contributes 0, ARBITER is skipped,
any other state contributes the initial 0. -/
def replLagMemberStep (hosts : List String) (ts : Int) (t : ℚ)
    (acc : TSMap) (ni : Nat × ReplMember) : TSMap :=
  let i := ni.1
  let mbr := ni.2
  if mbr.State = 7 then acc
  else
    let v : ℚ := if mbr.State = 2 then ((ts - mbr.OptimeT : Int) : ℚ) else 0
    let key := hosts.getD i ""
    let x := tsdGetD acc key
    tsdPut acc key { x with DataPoints := x.DataPoints ++ [dataPoint v t] }

/-- The lag appends of one sample. -/
def replLagStep (lags : TSMap) (hosts : List String) (ts : Int) (t : ℚ)
    (members : List ReplMember) : TSMap :=
  members.enum.foldl (replLagMemberStep hosts ts t) lags

/-- The main loop of `getReplSetGetStatusTimeSeriesDoc`: state is the legend
map, the per-host lag map and the positional `hosts` mapping. -/
def getReplLoop (tsd lags : TSMap) (hosts : List String) :
    List ReplSetStatusDoc → TSMap × TSMap
  | [] => (tsd, lags)
  | stat :: rest =>
      if stat.Members = [] then getReplLoop tsd lags hosts rest
      else
        let members := sortBy (fun a b => a.Name.data ≤ b.Name.data) stat.Members
        if hosts.length = 0 ∨ hosts.length ≠ members.length then
          let (hosts', tsd') := replRebuild tsd members
          getReplLoop tsd' lags hosts' rest
        else
          let ts := ((members.find? (fun mbr => mbr.State == 1)).map
            (fun mbr => mbr.OptimeT)).getD 0
          if ts = 0 then getReplLoop tsd lags hosts rest
          else
            let t : ℚ := (stat.DateMs : ℚ)
            getReplLoop tsd (replLagStep lags hosts ts t members) hosts rest

/-- The `getReplSetGetStatusTimeSeriesDoc` from time_series_data.go, returning
`(timeSeriesData, replicationLags)` (the `legends` out-parameter is
endpoint metadata and is not modelled). -/
def getReplSetGetStatusTimeSeriesDoc (replSetGetStatusList : List ReplSetStatusDoc) :
    TSMap × TSMap :=
  let tsd0 := replSetChartsLegends.map
    (fun legend => (legend, ({ Target := legend, DataPoints := [] } : TimeSeriesDoc)))
  getReplLoop tsd0 [] [] replSetGetStatusList

/-! ## File reader merge (diagnostic.go) -/

/-- One entry of the `results` accumulator in `readDiagnosticFiles`
(`fileResult`): the per-file decode output and error.  The untyped
`ServerInfo interface{}` payload is carried as an optional tag; errors as
optional messages. -/
structure FileResult where
  filename : String := ""
  serverInfo : Option String := none
  ssList : List ServerStatusDoc := []
  smList : List SystemMetricsDoc := []
  rsList : List ReplSetStatusDoc := []
  err : Option String := none
deriving DecidableEq, Repr

/-- The merged `DiagnosticData` plus the function's `err` return value. -/
structure MergedDiagnosticData where
  serverInfo : Option String := none
  ssList : List ServerStatusDoc := []
  smList : List SystemMetricsDoc := []
  rsList : List ReplSetStatusDoc := []
  err : Option String := none
deriving DecidableEq, Repr

/-- The merge phase of `readDiagnosticFiles` (diagnostic.go): sort results
by filename, then concatenate the lists of error-free files; a failing
file's data is skipped but its error is stored into `err`, which the
function returns.  `prevInfo` is the receiver's pre-existing `ServerInfo`
(the lists are reset before merging, `ServerInfo` is not). -/
def readDiagnosticFilesMerge (prevInfo : Option String)
    (results : List FileResult) : MergedDiagnosticData :=
  let sorted := sortBy (fun a b => a.filename.data ≤ b.filename.data) results
  sorted.foldl
    (fun acc r =>
      match r.err with
      | some e => { acc with err := some e }
      | none =>
          { acc with
            serverInfo := match r.serverInfo with
              | some s => some s
              | none => acc.serverInfo,
            ssList := acc.ssList ++ r.ssList,
            smList := acc.smList ++ r.smList,
            rsList := acc.rsList ++ r.rsList })
    { serverInfo := prevInfo, ssList := [], smList := [], rsList := [], err := none }

/-- The error returned by the merge loop: the last failing file's error in
filename-sorted order, if any. -/
def lastFileError (sorted : List FileResult) : Option String :=
  sorted.foldl
    (fun acc r => match r.err with
      | some e => some e
      | none => acc)
    none

/-! ## Assessment engine (assessment.go) -/

/-- The `getStatsByData` from assessment.go: slice the window, sort the values
ascending, and pick `(p5, median, p95)` at truncated fractional positions
(clamped to the last index).  The float constants `0.05`, `0.5`, `0.95`
are modelled as exact rationals; for the relevant array sizes the Go
float computation truncates to the same indices. -/
def getStatsByData (data : TimeSeriesDoc) (fromMs toMs : ℚ) : ℚ × ℚ × ℚ :=
  let stats := FilterTimeSeriesData data fromMs toMs
  if stats.DataPoints = [] then (0, 0, 0)
  else
    let arr := sortBy (fun a b => a ≤ b) (stats.DataPoints.map (fun dp => dp.v))
    let en := arr.length - 1
    let samples : ℚ := (arr.length : ℚ) + 1
    let p5 := min (truncQ (samples * (5 / 100))).toNat en
    let median := min (truncQ (samples * (50 / 100))).toNat en
    let p95 := min (min (truncQ (samples * (95 / 100))).toNat (arr.length - 1)) en
    (arr.getD p5 0, arr.getD median 0, arr.getD p95 0)

/-! ## Concrete instances used by the theorems -/

/-- Reference document `{a:1, b:true}` of Scenario A (BSON integer literals
unmarshal as `int32`). -/
def scenarioADoc : BsonValue := .doc [("a", .i32 1), ("b", .bool true)]

/-- Delta stream encoding the reconstructed deltas `[0,5]` for `a` and
`[1,0]` for `b`: a literal 0 followed by a zero-run count of 0, then 5;
then 1, then 0 with a zero-run count of 0. -/
def scenarioABytes : List Nat := [0, 0, 5, 1, 0, 0]

/-- A reference document with a duplicated key at the same path. -/
def dupKeyDoc : BsonValue := .doc [("a", .i32 1), ("a", .i32 1)]

/-- The successful decode of the duplicate-key document, written out. -/
def dupKeyDecoded : MetricsData :=
  { NumDeltas := 1, DataPointsMap := [("a", [1, 2, 2])],
    attribsList := ["a", "a"] }

/-- The successful decode of the Scenario A document, written out. -/
def scenarioADecoded : MetricsData :=
  { NumDeltas := 2, DataPointsMap := [("a", [1, 1, 6]), ("b", [1, 2, 2])],
    attribsList := ["a", "b"] }

/-- A 1802-point series with constant value 1 and timestamps 0..1801; the
window `[0, 1801]` slices 1801 of its points. -/
def bigSeries : TimeSeriesDoc :=
  { Target := "disks_utils",
    DataPoints := (List.range 1802).map (fun i : Nat => ⟨1, (i : ℚ)⟩) }

/-- A two-point series for the idempotence counterexample. -/
def twoPointSeries : TimeSeriesDoc := ⟨"net_in", [⟨5, 1000⟩, ⟨7, 2000⟩]⟩

/-- A three-point series for the downsampler witness. -/
def threePointSeries : TimeSeriesDoc :=
  ⟨"net_out", [⟨1, 10⟩, ⟨2, 20⟩, ⟨3, 30⟩]⟩

/-- A four-point series whose window `[1000, 4000]` contains the values
`[10, 20, 30]`. -/
def percentileSeries : TimeSeriesDoc :=
  ⟨"scan_sort", [⟨10, 1000⟩, ⟨20, 2000⟩, ⟨30, 3000⟩, ⟨99, 4000⟩]⟩

/-- The sorted in-window values of `getStatsByData`, exposed for the
percentile statements. -/
def windowSortedValues (data : TimeSeriesDoc) (fromMs toMs : ℚ) : List ℚ :=
  sortBy (fun a b => a ≤ b)
    ((FilterTimeSeriesData data fromMs toMs).DataPoints.map (fun dp => dp.v))

/-- Sample with uptime 10 and 100 queries served, at t = 1000 ms. -/
def ssSample0 : ServerStatusDoc :=
  { Uptime := 10, LocalTimeMs := 1000, OpCounters := { Query := 100 } }

/-- Sample with uptime 20 (no restart) but a query counter that went down
to 50, at t = 2000 ms. -/
def ssSample1 : ServerStatusDoc :=
  { Uptime := 20, LocalTimeMs := 2000, OpCounters := { Query := 50 } }

/-- System-metrics samples one second apart, with a CPU counter that goes
backwards (idle 100 -> 50). -/
def smSample0 : SystemMetricsDoc := { StartMs := 0, CPU := { IdleMS := 100, UserMS := 50 } }

/-- Successor sample of `smSample0`. -/
def smSample1 : SystemMetricsDoc := { StartMs := 1000, CPU := { IdleMS := 50, UserMS := 300 } }

/-- A PRIMARY member at optime 100. -/
def replPrimary : ReplMember := { Name := "b.example:1", State := 1, OptimeT := 100 }

/-- A SECONDARY member at optime 90. -/
def replSecondary : ReplMember := { Name := "a.example:1", State := 2, OptimeT := 90 }

/-- A replica-set status sample with one PRIMARY and one SECONDARY. -/
def replSample : ReplSetStatusDoc :=
  { DateMs := 500, Members := [replPrimary, replSecondary] }

/-- A successfully decoded file result. -/
def goodFile : FileResult :=
  { filename := "metrics.2020-05-19T20-43-17Z-00000",
    serverInfo := some "host-a", ssList := [ssSample0] }

/-- A failing file result. -/
def badFile : FileResult :=
  { filename := "metrics.2020-05-19T21-43-17Z-00000", err := some "bad zlib data" }

/-- Invariant of the reference-document traversal: every map entry holds
exactly the seed value, the map's key set is exactly the traversal list's
key set, and map keys are unique (duplicates collapse). -/
def travInv (st : List String × AttrMap) : Prop :=
  (∀ kv ∈ st.2, kv.2.length = 1) ∧
    (∀ k : String, (∃ l, (k, l) ∈ st.2) ↔ k ∈ st.1) ∧
    (st.2.map Prod.fst).Nodup

/-- The per-consecutive-pair description of the derived `ops_query` series:
one point per adjacent sample pair whose `Uptime` strictly increased, whose
value is the wrapped `uint64` counter difference over the rounded elapsed
seconds (clamped through `dataPoint`), timestamped at the current sample. -/
def opsQueryRateSeries (l : List ServerStatusDoc) : List DataPt :=
  (l.zip l.tail).filterMap (fun pc =>
    if pc.2.Uptime ≤ pc.1.Uptime then none
    else some (dataPoint
      ((u64sub pc.2.OpCounters.Query pc.1.OpCounters.Query : ℚ) /
        elapsedSeconds pc.2 pc.1)
      ((pc.2.LocalTimeMs : ℚ))))

/-- All data-point values in a legend-keyed series map are nonnegative. -/
def nonnegTS (m : TSMap) : Prop :=
  ∀ kv ∈ m, ∀ p ∈ kv.2.DataPoints, 0 ≤ p.v

/-- All data-point values of one device's derived series are nonnegative. -/
def nonnegDisk (d : DiskStats) : Prop :=
  (∀ p ∈ d.IOPS.DataPoints, 0 ≤ p.v) ∧
    (∀ p ∈ d.IOInProgress.DataPoints, 0 ≤ p.v) ∧
    (∀ p ∈ d.IOQueuedMS.DataPoints, 0 ≤ p.v) ∧
    (∀ p ∈ d.ReadTimeMS.DataPoints, 0 ≤ p.v) ∧
    (∀ p ∈ d.WriteTimeMS.DataPoints, 0 ≤ p.v) ∧
    (∀ p ∈ d.Utilization.DataPoints, 0 ≤ p.v)

/-- All data-point values in a per-device stats map are nonnegative. -/
def nonnegDS (m : List (String × DiskStats)) : Prop :=
  ∀ kv ∈ m, nonnegDisk kv.2

/-! ## Theorems -/

lemma findClosest_le_first (arr : List DataPt) (t : ℚ) (h : t ≤ dpTs arr 0) :
    findClosestDataPointIndex arr t = 0 := by
  simp [findClosestDataPointIndex, h]

lemma findClosest_ge_last (arr : List DataPt) (t : ℚ)
    (h1 : ¬ t ≤ dpTs arr 0) (h2 : dpTs arr (arr.length - 1) ≤ t) :
    findClosestDataPointIndex arr t = arr.length - 1 := by
  simp [findClosestDataPointIndex, h1, h2]

lemma chunkLoop_one (pts : List DataPt) : chunkLoop pts 1 = pts.map (fun p => [p]) := by
  induction pts with
  | nil => rw [chunkLoop]; simp
  | cons p rest ih => rw [chunkLoop]; simp [ih]

/-- Under a window that starts at or before the first timestamp and ends at
or after the last (strictly after the first), the filter slices
`[0 : len-1]`, i.e. it drops the final point before deciding whether to
downsample. -/
lemma filter_full_eq (ts : TimeSeriesDoc) (fromMs toMs : ℚ)
    (hne : ts.DataPoints ≠ [])
    (hfrom : fromMs ≤ dpTs ts.DataPoints 0)
    (hto1 : dpTs ts.DataPoints 0 < toMs)
    (hto2 : dpTs ts.DataPoints (ts.DataPoints.length - 1) ≤ toMs) :
    FilterTimeSeriesData ts fromMs toMs =
      if maxPoints < ts.DataPoints.dropLast.length then
        ⟨ts.Target, ((chunkLoop ts.DataPoints.dropLast
            (max (ts.DataPoints.dropLast.length / maxPoints) 1)).filter
              (fun b => !b.isEmpty)).map bucketAvgPoint⟩
      else ⟨ts.Target, ts.DataPoints.dropLast⟩ := by
  have hf : findClosestDataPointIndex ts.DataPoints fromMs = 0 :=
    findClosest_le_first _ _ hfrom
  have he : findClosestDataPointIndex ts.DataPoints toMs = ts.DataPoints.length - 1 :=
    findClosest_ge_last _ _ (not_le.mpr hto1) hto2
  have hslice : goSlice ts.DataPoints 0 (ts.DataPoints.length - 1) =
      ts.DataPoints.dropLast := by
    simp [goSlice, List.dropLast_eq_take]
  unfold FilterTimeSeriesData
  rw [if_neg hne]
  simp only [hf, he, hslice]
  by_cases hemp : ts.DataPoints.dropLast = []
  · rw [if_pos hemp]
    have : ¬ maxPoints < ts.DataPoints.dropLast.length := by
      rw [hemp]; simp [maxPoints]
    rw [if_neg this, hemp]
  · rw [if_neg hemp]

lemma bigSeries_len : bigSeries.DataPoints.length = 1802 := by
  simp [bigSeries]

lemma bigSeries_dpTs_zero : dpTs bigSeries.DataPoints 0 = 0 := by
  rw [dpTs, bigSeries]
  rw [List.get?_map, List.get?_range (by norm_num : (0 : ℕ) < 1802)]
  rfl

lemma bigSeries_dpTs_last : dpTs bigSeries.DataPoints 1801 = 1801 := by
  rw [dpTs, bigSeries]
  rw [List.get?_map, List.get?_range (by norm_num : (1801 : ℕ) < 1802)]
  rfl

set_option maxRecDepth 4000 in
/-- C3: the range filter, applied to a window of 1801 > 1800 points, uses
bucket size `⌊1801/1800⌋ = 1` and returns all 1801 points — more than the
fixed maximum `maxPoints = 1800` its own comment promises, contradicting
the claimed `⌈len/1800⌉` bucketing (which would return 901 points).  For a
10,000-point window the same floor division yields bucket size 5 and 2000
output points. -/
theorem FilterTimeSeriesData_exceeds_max :
    (FilterTimeSeriesData bigSeries 0 1801).DataPoints.length = 1801 ∧
      maxPoints < 1801 := by
  refine ⟨?_, by norm_num [maxPoints]⟩
  have hne : bigSeries.DataPoints ≠ [] :=
    List.ne_nil_of_length_pos (by rw [bigSeries_len]; norm_num)
  have h := filter_full_eq bigSeries 0 1801 hne
    (by rw [bigSeries_dpTs_zero]) (by rw [bigSeries_dpTs_zero]; norm_num)
    (by rw [bigSeries_len, bigSeries_dpTs_last])
  have hdl : bigSeries.DataPoints.dropLast.length = 1801 := by
    rw [List.length_dropLast, bigSeries_len]
  rw [h, if_pos (by rw [hdl]; norm_num [maxPoints])]
  have hbs : max (bigSeries.DataPoints.dropLast.length / maxPoints) 1 = 1 := by
    rw [hdl]; norm_num [maxPoints]
  rw [hbs, chunkLoop_one]
  rw [List.filter_eq_self.mpr]
  · rw [List.length_map]
    exact hdl
  · intro b hb
    obtain ⟨p, _, rfl⟩ := List.mem_map.mp hb
    simp

/-- C4 counterexample: on a 2-point series (well under the 1800-point
maximum) with a window covering both points, re-running the filter does not
return its own output unchanged — the slice `[fidx:eidx]` excludes the end
index, so each application drops the final point. -/
theorem FilterTimeSeriesData_not_idempotent :
    FilterTimeSeriesData (FilterTimeSeriesData twoPointSeries 0 3000) 0 3000 ≠
        FilterTimeSeriesData twoPointSeries 0 3000 ∧
      twoPointSeries.DataPoints.length ≤ maxPoints := by decide

lemma dpTs_dropLast_zero (l : List DataPt) (h : l.dropLast ≠ []) :
    dpTs l.dropLast 0 = dpTs l 0 := by
  match l with
  | [] => simp at h
  | [a] => simp at h
  | a :: b :: t => simp [dpTs]

lemma dpTs_last (m : List DataPt) (h : m ≠ []) :
    dpTs m (m.length - 1) = (m.getLast h).ts := by
  have hlt : m.length - 1 < m.length := by
    have := List.length_pos.mpr h
    omega
  rw [dpTs, List.get?_eq_get hlt]
  simp [List.getLast_eq_get]

lemma sorted_dropLast_last_le (l : List DataPt)
    (hs : l.Pairwise (fun p q => p.ts ≤ q.ts)) (h : l ≠ [])
    (h2 : l.dropLast ≠ []) :
    (l.dropLast.getLast h2).ts ≤ (l.getLast h).ts := by
  have hs' := hs
  rw [← List.dropLast_append_getLast h] at hs'
  rcases List.pairwise_append.mp hs' with ⟨_, _, hcross⟩
  exact hcross _ (List.getLast_mem h2) _ (by simp)

/-- C4 (amended): for a sorted series of at most 1800 points and a window
that covers all its timestamps (strictly past the first), one filter
application returns the series minus its final point, and a second
application drops yet another point — so the downsampler is idempotent
precisely when the first output is empty. -/
theorem FilterTimeSeriesData_drops_last_each_run
    (ts : TimeSeriesDoc) (fromMs toMs : ℚ)
    (hne : ts.DataPoints ≠ [])
    (hsort : ts.DataPoints.Pairwise (fun p q => p.ts ≤ q.ts))
    (hfrom : fromMs ≤ dpTs ts.DataPoints 0)
    (hto1 : dpTs ts.DataPoints 0 < toMs)
    (hto2 : dpTs ts.DataPoints (ts.DataPoints.length - 1) ≤ toMs)
    (hlen : ts.DataPoints.length ≤ maxPoints) :
    FilterTimeSeriesData ts fromMs toMs = ⟨ts.Target, ts.DataPoints.dropLast⟩ ∧
      FilterTimeSeriesData (FilterTimeSeriesData ts fromMs toMs) fromMs toMs =
        ⟨ts.Target, ts.DataPoints.dropLast.dropLast⟩ := by
  have hnotmax : ∀ m : List DataPt, m.length ≤ maxPoints →
      ¬ maxPoints < m.dropLast.length := by
    intro m hm
    rw [List.length_dropLast]
    omega
  have h1 : FilterTimeSeriesData ts fromMs toMs = ⟨ts.Target, ts.DataPoints.dropLast⟩ := by
    rw [filter_full_eq ts fromMs toMs hne hfrom hto1 hto2,
      if_neg (hnotmax _ hlen)]
  refine ⟨h1, ?_⟩
  rw [h1]
  by_cases hemp : ts.DataPoints.dropLast = []
  · rw [hemp]
    simp [FilterTimeSeriesData]
  · have hfrom' : fromMs ≤ dpTs ts.DataPoints.dropLast 0 := by
      rw [dpTs_dropLast_zero _ hemp]; exact hfrom
    have hto1' : dpTs ts.DataPoints.dropLast 0 < toMs := by
      rw [dpTs_dropLast_zero _ hemp]; exact hto1
    have hto2' : dpTs ts.DataPoints.dropLast (ts.DataPoints.dropLast.length - 1) ≤ toMs := by
      rw [dpTs_last _ hemp]
      refine le_trans (sorted_dropLast_last_le _ hsort hne hemp) ?_
      rw [← dpTs_last _ hne]
      exact hto2
    have hlen' : ts.DataPoints.dropLast.length ≤ maxPoints := by
      rw [List.length_dropLast]; omega
    have h2 := filter_full_eq ⟨ts.Target, ts.DataPoints.dropLast⟩ fromMs toMs
      hemp hfrom' hto1' hto2'
    rw [h2, if_neg (hnotmax _ hlen')]

/-- C4 witness: the amended statement evaluated on a concrete sorted
3-point series with a covering window. -/
theorem FilterTimeSeriesData_drops_last_each_run_witness :
    FilterTimeSeriesData threePointSeries 0 40 =
        ⟨threePointSeries.Target, threePointSeries.DataPoints.dropLast⟩ ∧
      FilterTimeSeriesData (FilterTimeSeriesData threePointSeries 0 40) 0 40 =
        ⟨threePointSeries.Target, threePointSeries.DataPoints.dropLast.dropLast⟩ :=
  FilterTimeSeriesData_drops_last_each_run threePointSeries 0 40 (by decide)
    (by decide) (by decide) (by decide) (by decide) (by decide)

/-- C7 counterexample: inside the acceptable range the score is computed
with Go's `int(...)` conversion, which truncates: at `v = 1`, range
`(0, 3)`, the linear value is `200/3 = 66.67`, the code returns 66 while
the claimed `round` gives 67. -/
theorem GetScoreByRange_truncates :
    GetScoreByRange 1 0 3 = 66 ∧
      roundHalfAway (100 * (1 - ((1 : ℚ) - 0) / (3 - 0))) = 67 := by
  norm_num [GetScoreByRange, truncQ, roundHalfAway]

/-- C7 (amended): with `low < high`, the health score is 100 for `v ≤ low`
(at `v = low` via the linear formula), 0 for `v ≥ high`, and otherwise the
floor (truncation, not rounding) of `100·(1 − (v−low)/(high−low))`, which
necessarily lies in `[0, 100]`. -/
theorem GetScoreByRange_piecewise (v low high : ℚ) (h : low < high) :
    (v ≤ low → GetScoreByRange v low high = 100) ∧
      (high ≤ v → GetScoreByRange v low high = 0) ∧
      (low ≤ v → v ≤ high →
        GetScoreByRange v low high = ⌊100 * (1 - (v - low) / (high - low))⌋ ∧
          0 ≤ GetScoreByRange v low high ∧ GetScoreByRange v low high ≤ 100) := by
  have hhl : (0 : ℚ) < high - low := sub_pos.mpr h
  refine ⟨?_, ?_, ?_⟩
  · intro hv
    by_cases hlt : v < low
    · simp [GetScoreByRange, hlt]
    · have heq : v = low := le_antisymm hv (not_lt.mp hlt)
      subst heq
      rw [GetScoreByRange, if_neg hlt, if_neg (not_lt.mpr (le_of_lt h))]
      norm_num [truncQ]
  · intro hv
    by_cases hgt : high < v
    · rw [GetScoreByRange, if_neg (not_lt.mpr (le_trans (le_of_lt h) hv)), if_pos hgt]
    · have heq : v = high := le_antisymm (not_lt.mp hgt) hv
      subst heq
      rw [GetScoreByRange, if_neg (not_lt.mpr (le_of_lt h)), if_neg hgt,
        div_self (ne_of_gt hhl)]
      norm_num [truncQ]
  · intro h1 h2
    have hx0 : 0 ≤ (v - low) / (high - low) :=
      div_nonneg (sub_nonneg.mpr h1) (le_of_lt hhl)
    have hx1 : (v - low) / (high - low) ≤ 1 :=
      (div_le_one hhl).mpr (sub_le_sub_right h2 low)
    have harg0 : 0 ≤ 100 * (1 - (v - low) / (high - low)) :=
      mul_nonneg (by norm_num) (sub_nonneg.mpr hx1)
    have harg100 : 100 * (1 - (v - low) / (high - low)) ≤ 100 := by nlinarith
    have hsc : GetScoreByRange v low high =
        ⌊100 * (1 - (v - low) / (high - low))⌋ := by
      rw [GetScoreByRange, if_neg (not_lt.mpr h1), if_neg (not_lt.mpr h2),
        truncQ, if_pos harg0]
    refine ⟨hsc, ?_, ?_⟩
    · rw [hsc]
      exact Int.floor_nonneg.mpr harg0
    · rw [hsc]
      calc ⌊100 * (1 - (v - low) / (high - low))⌋ ≤ ⌊(100 : ℚ)⌋ :=
            Int.floor_le_floor harg100
        _ = 100 := by norm_num

/-- C7 witness: the in-range branch evaluated at `v = 1`, range `(0, 3)`. -/
theorem GetScoreByRange_piecewise_witness :
    GetScoreByRange 1 0 3 = ⌊100 * (1 - ((1 : ℚ) - 0) / (3 - 0))⌋ ∧
      0 ≤ GetScoreByRange 1 0 3 ∧ GetScoreByRange 1 0 3 ≤ 100 :=
  (GetScoreByRange_piecewise 1 0 3 (by norm_num)).2.2 (by norm_num) (by norm_num)

lemma truncQ_pct_toNat (b : ℕ) (n : ℕ) (hb : 0 < b) :
    (truncQ (((n : ℚ) + 1) * ((b : ℚ) / 100))).toNat = (n + 1) * b / 100 := by
  have hq : ((n : ℚ) + 1) * ((b : ℚ) / 100) =
      (((n + 1) * b : ℕ) : ℚ) / ((100 : ℕ) : ℚ) := by
    push_cast
    ring
  rw [truncQ, if_pos (by positivity), hq, Int.floor_toNat, Nat.floor_div_nat]
  simp only [Nat.floor_natCast]

lemma truncQ_p5_toNat (n : ℕ) :
    (truncQ (((n : ℚ) + 1) * (5 / 100))).toNat = (n + 1) / 20 := by
  have h5 : ((5 : ℚ) / 100) = (((5 : ℕ) : ℚ) / 100) := by norm_num
  rw [h5, truncQ_pct_toNat 5 n (by norm_num)]
  omega

lemma truncQ_p50_toNat (n : ℕ) :
    (truncQ (((n : ℚ) + 1) * (50 / 100))).toNat = (n + 1) / 2 := by
  have h50 : ((50 : ℚ) / 100) = (((50 : ℕ) : ℚ) / 100) := by norm_num
  rw [h50, truncQ_pct_toNat 50 n (by norm_num)]
  omega

lemma truncQ_p95_toNat (n : ℕ) :
    (truncQ (((n : ℚ) + 1) * (95 / 100))).toNat = 19 * (n + 1) / 20 := by
  have h95 : ((95 : ℚ) / 100) = (((95 : ℕ) : ℚ) / 100) := by norm_num
  rw [h95, truncQ_pct_toNat 95 n (by norm_num)]
  omega

lemma getStats_positions_helper (data : TimeSeriesDoc) (fromMs toMs : ℚ)
    (h : ¬ (FilterTimeSeriesData data fromMs toMs).DataPoints = []) :
    getStatsByData data fromMs toMs =
      ((windowSortedValues data fromMs toMs).getD
          (min (((windowSortedValues data fromMs toMs).length + 1) / 20)
            ((windowSortedValues data fromMs toMs).length - 1)) 0,
       (windowSortedValues data fromMs toMs).getD
          (min (((windowSortedValues data fromMs toMs).length + 1) / 2)
            ((windowSortedValues data fromMs toMs).length - 1)) 0,
       (windowSortedValues data fromMs toMs).getD
          (min (min (19 * ((windowSortedValues data fromMs toMs).length + 1) / 20)
              ((windowSortedValues data fromMs toMs).length - 1))
            ((windowSortedValues data fromMs toMs).length - 1)) 0) := by
  unfold getStatsByData windowSortedValues
  rw [if_neg h]
  simp only [truncQ_p5_toNat, truncQ_p50_toNat, truncQ_p95_toNat]

/-- C6 counterexample: for in-window values `[10, 20, 30]` (n = 3) the
claimed 1-based positions `⌈0.05·4⌉ = 1`, `⌈0.5·4⌉ = 2`, `⌈0.95·4⌉ = 4`
(clamped to 3) select `(10, 20, 30)`, but the code indexes with the
truncation `int(samples·p)` and returns `(10, 30, 30)` — the median
differs. -/
theorem getStatsByData_ceil_refuted :
    windowSortedValues percentileSeries 1000 4000 = [10, 20, 30] ∧
      getStatsByData percentileSeries 1000 4000 ≠ (10, 20, 30) := by
  refine ⟨by decide, ?_⟩
  rw [getStats_positions_helper percentileSeries 1000 4000 (by decide)]
  decide

/-- C6 (amended): for every window with a nonempty sliced point set, the
assessment statistics are the ascending-sorted in-window values at the
0-based truncated indices `⌊0.05·(n+1)⌋`, `⌊0.5·(n+1)⌋`, `⌊0.95·(n+1)⌋`
— that is `(n+1)/20`, `(n+1)/2`, `19·(n+1)/20` in integer division — each
clamped to the last index `n−1` (the p95 index is clamped twice in the
source). -/
theorem getStatsByData_truncated_positions (data : TimeSeriesDoc)
    (fromMs toMs : ℚ)
    (h : ¬ (FilterTimeSeriesData data fromMs toMs).DataPoints = []) :
    getStatsByData data fromMs toMs =
      ((windowSortedValues data fromMs toMs).getD
          (min (((windowSortedValues data fromMs toMs).length + 1) / 20)
            ((windowSortedValues data fromMs toMs).length - 1)) 0,
       (windowSortedValues data fromMs toMs).getD
          (min (((windowSortedValues data fromMs toMs).length + 1) / 2)
            ((windowSortedValues data fromMs toMs).length - 1)) 0,
       (windowSortedValues data fromMs toMs).getD
          (min (min (19 * ((windowSortedValues data fromMs toMs).length + 1) / 20)
              ((windowSortedValues data fromMs toMs).length - 1))
            ((windowSortedValues data fromMs toMs).length - 1)) 0) :=
  getStats_positions_helper data fromMs toMs h

/-- C6 witness: the truncated-position statement evaluated on the concrete
4-point series, giving `(10, 30, 30)`. -/
theorem getStatsByData_truncated_positions_witness :
    getStatsByData percentileSeries 1000 4000 =
      ((windowSortedValues percentileSeries 1000 4000).getD
          (min (((windowSortedValues percentileSeries 1000 4000).length + 1) / 20)
            ((windowSortedValues percentileSeries 1000 4000).length - 1)) 0,
       (windowSortedValues percentileSeries 1000 4000).getD
          (min (((windowSortedValues percentileSeries 1000 4000).length + 1) / 2)
            ((windowSortedValues percentileSeries 1000 4000).length - 1)) 0,
       (windowSortedValues percentileSeries 1000 4000).getD
          (min (min (19 * ((windowSortedValues percentileSeries 1000 4000).length + 1) / 20)
              ((windowSortedValues percentileSeries 1000 4000).length - 1))
            ((windowSortedValues percentileSeries 1000 4000).length - 1)) 0) :=
  getStatsByData_truncated_positions percentileSeries 1000 4000 (by decide)

/-- C5 counterexample: with one good file and one failing file, the good
file's records are merged and the bad file's data is skipped, but
`readDiagnosticFiles` returns the failing file's error — not nil. -/
theorem readDiagnosticFilesMerge_error_returned :
    (readDiagnosticFilesMerge none [goodFile, badFile]).ssList = [ssSample0] ∧
      (readDiagnosticFilesMerge none [goodFile, badFile]).err = some "bad zlib data" ∧
      (readDiagnosticFilesMerge none [goodFile, badFile]).err ≠ none := by
  refine ⟨by decide, by decide, by decide⟩

lemma mem_insertSorted {le : α → α → Bool} {x a : α} {l : List α} :
    a ∈ insertSorted le x l ↔ a = x ∨ a ∈ l := by
  induction l with
  | nil => simp [insertSorted]
  | cons y t ih =>
      by_cases hle : le x y
      · simp [insertSorted, hle]
      · simp [insertSorted, hle, ih]
        tauto

lemma mem_sortBy {le : α → α → Bool} {a : α} {l : List α} :
    a ∈ sortBy le l ↔ a ∈ l := by
  induction l with
  | nil => simp [sortBy]
  | cons y t ih =>
      simp only [sortBy, List.foldr] at ih ⊢
      rw [mem_insertSorted, ih, List.mem_cons]

lemma lastFileError_foldl_none (l : List FileResult) (acc : Option String) :
    (l.foldl (fun a r => match r.err with | some e => some e | none => a) acc
      = none) ↔ acc = none ∧ ∀ r ∈ l, r.err = none := by
  induction l generalizing acc with
  | nil => simp
  | cons r t ih =>
      simp only [List.foldl_cons]
      cases herr : r.err with
      | some e =>
          simp only [herr, ih]
          constructor
          · rintro ⟨h, -⟩
            exact absurd h (by simp)
          · rintro ⟨-, hall⟩
            exact absurd (hall r (by simp)) (by simp [herr])
      | none =>
          simp only [herr, ih]
          constructor
          · rintro ⟨h, hall⟩
            exact ⟨h, by
              intro x hx
              rcases List.mem_cons.mp hx with rfl | hx
              · exact herr
              · exact hall x hx⟩
          · rintro ⟨h, hall⟩
            exact ⟨h, fun x hx => hall x (List.mem_cons_of_mem _ hx)⟩

lemma merge_foldl_spec (l : List FileResult) (acc : MergedDiagnosticData) :
    (l.foldl
        (fun acc r =>
          match r.err with
          | some e => { acc with err := some e }
          | none =>
              { acc with
                serverInfo := match r.serverInfo with
                  | some s => some s
                  | none => acc.serverInfo,
                ssList := acc.ssList ++ r.ssList,
                smList := acc.smList ++ r.smList,
                rsList := acc.rsList ++ r.rsList }) acc).ssList =
        acc.ssList ++ (l.filter (fun r => r.err.isNone)).flatMap (fun r => r.ssList) ∧
      (l.foldl
        (fun acc r =>
          match r.err with
          | some e => { acc with err := some e }
          | none =>
              { acc with
                serverInfo := match r.serverInfo with
                  | some s => some s
                  | none => acc.serverInfo,
                ssList := acc.ssList ++ r.ssList,
                smList := acc.smList ++ r.smList,
                rsList := acc.rsList ++ r.rsList }) acc).smList =
        acc.smList ++ (l.filter (fun r => r.err.isNone)).flatMap (fun r => r.smList) ∧
      (l.foldl
        (fun acc r =>
          match r.err with
          | some e => { acc with err := some e }
          | none =>
              { acc with
                serverInfo := match r.serverInfo with
                  | some s => some s
                  | none => acc.serverInfo,
                ssList := acc.ssList ++ r.ssList,
                smList := acc.smList ++ r.smList,
                rsList := acc.rsList ++ r.rsList }) acc).rsList =
        acc.rsList ++ (l.filter (fun r => r.err.isNone)).flatMap (fun r => r.rsList) ∧
      (l.foldl
        (fun acc r =>
          match r.err with
          | some e => { acc with err := some e }
          | none =>
              { acc with
                serverInfo := match r.serverInfo with
                  | some s => some s
                  | none => acc.serverInfo,
                ssList := acc.ssList ++ r.ssList,
                smList := acc.smList ++ r.smList,
                rsList := acc.rsList ++ r.rsList }) acc).err =
        l.foldl (fun a r => match r.err with | some e => some e | none => a) acc.err := by
  induction l generalizing acc with
  | nil => simp
  | cons r t ih =>
      cases herr : r.err with
      | some e =>
          simp only [List.foldl_cons, List.filter_cons, herr, Option.isNone_some]
          simpa using ih _
      | none =>
          simp only [List.foldl_cons, List.filter_cons, herr, Option.isNone_none]
          cases hs : r.serverInfo with
          | none =>
              simp only [hs]
              have := ih ⟨acc.serverInfo, acc.ssList ++ r.ssList,
                acc.smList ++ r.smList, acc.rsList ++ r.rsList, acc.err⟩
              simpa [List.append_assoc] using this
          | some s =>
              simp only [hs]
              have := ih ⟨some s, acc.ssList ++ r.ssList,
                acc.smList ++ r.smList, acc.rsList ++ r.rsList, acc.err⟩
              simpa [List.append_assoc] using this

/-- C5 (amended): the merge loop of `readDiagnosticFiles` concatenates the
records of error-free files in filename-sorted order — a failing file's
data is skipped and does not disturb its siblings — but the loop stores
each failure's error into the returned `err`, so the call returns the last
failing file's error (non-nil whenever any file failed) rather than nil. -/
theorem readDiagnosticFilesMerge_spec (prevInfo : Option String)
    (results : List FileResult) :
    (readDiagnosticFilesMerge prevInfo results).ssList =
        ((sortBy (fun a b => a.filename.data ≤ b.filename.data) results).filter
          (fun r => r.err.isNone)).flatMap (fun r => r.ssList) ∧
      (readDiagnosticFilesMerge prevInfo results).smList =
        ((sortBy (fun a b => a.filename.data ≤ b.filename.data) results).filter
          (fun r => r.err.isNone)).flatMap (fun r => r.smList) ∧
      (readDiagnosticFilesMerge prevInfo results).rsList =
        ((sortBy (fun a b => a.filename.data ≤ b.filename.data) results).filter
          (fun r => r.err.isNone)).flatMap (fun r => r.rsList) ∧
      (readDiagnosticFilesMerge prevInfo results).err =
        lastFileError (sortBy (fun a b => a.filename.data ≤ b.filename.data) results) ∧
      (lastFileError (sortBy (fun a b => a.filename.data ≤ b.filename.data) results)
          = none ↔ ∀ r ∈ results, r.err = none) := by
  have h := merge_foldl_spec
    (sortBy (fun a b => a.filename.data ≤ b.filename.data) results)
    { serverInfo := prevInfo, ssList := [], smList := [], rsList := [], err := none }
  refine ⟨?_, ?_, ?_, ?_, ?_⟩
  · simpa [readDiagnosticFilesMerge] using h.1
  · simpa [readDiagnosticFilesMerge] using h.2.1
  · simpa [readDiagnosticFilesMerge] using h.2.2.1
  · simpa [readDiagnosticFilesMerge, lastFileError] using h.2.2.2
  · rw [lastFileError, lastFileError_foldl_none]
    simp only [true_and]
    constructor
    · intro hall r hr
      exact hall r (mem_sortBy.mpr hr)
    · intro hall r hr
      exact hall r (mem_sortBy.mp hr)

/-- C5 witness: the merge characterization evaluated on one good and one
bad file. -/
theorem readDiagnosticFilesMerge_spec_witness :
    (readDiagnosticFilesMerge none [goodFile, badFile]).ssList =
        ((sortBy (fun a b => a.filename.data ≤ b.filename.data) [goodFile, badFile]).filter
          (fun r => r.err.isNone)).flatMap (fun r => r.ssList) ∧
      (readDiagnosticFilesMerge none [goodFile, badFile]).smList =
        ((sortBy (fun a b => a.filename.data ≤ b.filename.data) [goodFile, badFile]).filter
          (fun r => r.err.isNone)).flatMap (fun r => r.smList) ∧
      (readDiagnosticFilesMerge none [goodFile, badFile]).rsList =
        ((sortBy (fun a b => a.filename.data ≤ b.filename.data) [goodFile, badFile]).filter
          (fun r => r.err.isNone)).flatMap (fun r => r.rsList) ∧
      (readDiagnosticFilesMerge none [goodFile, badFile]).err =
        lastFileError (sortBy (fun a b => a.filename.data ≤ b.filename.data) [goodFile, badFile]) ∧
      (lastFileError (sortBy (fun a b => a.filename.data ≤ b.filename.data) [goodFile, badFile])
          = none ↔ ∀ r ∈ [goodFile, badFile], r.err = none) :=
  readDiagnosticFilesMerge_spec none [goodFile, badFile]

/-- C2 counterexample: a `bool` leaf `true` seeds its series with 1 (the
source maps `true` to `uint64(1)`), so for the stated input the decoded
series of `b` is `[1, 2, 2]`, not the claimed `[0, 1, 1]`. -/
theorem decode_scenarioA_bool_seed :
    ((decode scenarioADoc 2 2 scenarioABytes).map
        (fun md => alGet md.DataPointsMap "b")) = some [1, 2, 2] ∧
      ([1, 2, 2] : List Nat) ≠ [0, 1, 1] := by decide

/-- C2 (amended): decoding the reference doc `{a:1, b:true}` with
`numAttribs = 2`, `numDeltas = 2` and reconstructed deltas `[0,5]` for `a`
and `[1,0]` for `b` yields `a = [1,1,6]` and `b = [1,2,2]` (the initial
value of `b` is 1, and each delta accumulates from there). -/
theorem decode_scenarioA :
    ((decode scenarioADoc 2 2 scenarioABytes).map
        (fun md => (alGet md.DataPointsMap "a", alGet md.DataPointsMap "b"))) =
      some ([1, 1, 6], [1, 2, 2]) := by decide

lemma travInv_addAttribute (st : List String × AttrMap) (key : String)
    (val : Nat) (h : travInv st) : travInv (addAttribute st key val) := by
  obtain ⟨h1, h2, h3⟩ := h
  rw [addAttribute]
  by_cases hmem : (st.2.find? (fun kv => kv.1 == key)).isSome = true
  · simp only [if_pos hmem]
    refine ⟨h1, ?_, h3⟩
    intro k
    constructor
    · intro hl
      exact List.mem_append_left _ ((h2 k).mp hl)
    · intro hk
      rcases List.mem_append.mp hk with hk | hk
      · exact (h2 k).mpr hk
      · have hkey : k = key := by simpa using hk
        subst hkey
        obtain ⟨kv, hkv, hbeq⟩ := List.find?_isSome.mp hmem
        have : kv.1 = k := by simpa using hbeq
        exact ⟨kv.2, by rw [← this]; exact hkv⟩
  · simp only [if_neg hmem]
    have hnot : ∀ kv ∈ st.2, kv.1 ≠ key := by
      intro kv hkv heq
      exact hmem (List.find?_isSome.mpr ⟨kv, hkv, by simp [heq]⟩)
    refine ⟨?_, ?_, ?_⟩
    · intro kv hkv
      rcases List.mem_append.mp hkv with hkv | hkv
      · exact h1 kv hkv
      · simp at hkv
        simp [hkv]
    · intro k
      constructor
      · rintro ⟨l, hl⟩
        rcases List.mem_append.mp hl with hl | hl
        · exact List.mem_append_left _ ((h2 k).mp ⟨l, hl⟩)
        · simp at hl
          simp [hl.1]
      · intro hk
        rcases List.mem_append.mp hk with hk | hk
        · obtain ⟨l, hl⟩ := (h2 k).mpr hk
          exact ⟨l, List.mem_append_left _ hl⟩
        · have : k = key := by simpa using hk
          exact ⟨[val], by simp [this]⟩
    · rw [List.map_append]
      simp only [List.map_cons, List.map_nil]
      rw [List.nodup_append]
      refine ⟨h3, List.nodup_singleton _, ?_⟩
      intro a ha hb
      have hb' : a = key := by simpa using hb
      obtain ⟨kv, hkv, hfst⟩ := List.mem_map.mp ha
      exact hnot kv hkv (by rw [hfst, hb'])

mutual

theorem travInv_traverseDocElem (v : BsonValue) :
    ∀ (st : List String × AttrMap) (p : String),
      travInv st → travInv (traverseDocElem st v p) := by
  intro st p h
  cases v with
  | arr elems =>
      rw [traverseDocElem]
      exact travInv_traverseArr elems st p 0 h
  | doc elems =>
      rw [traverseDocElem]
      exact travInv_traverseDocList elems st p h
  | bool b => exact travInv_addAttribute _ _ _ h
  | tsVal => exact travInv_addAttribute _ _ _ (travInv_addAttribute _ _ _ h)
  | oid => exact h
  | str s => exact h
  | f64 v => exact travInv_addAttribute _ _ _ h
  | i32 v => exact travInv_addAttribute _ _ _ h
  | i64 v => exact travInv_addAttribute _ _ _ h
  | dt v => exact travInv_addAttribute _ _ _ h

theorem travInv_traverseArr (elems : List BsonValue) :
    ∀ (st : List String × AttrMap) (p : String) (i : Nat),
      travInv st → travInv (traverseArr st elems p i) := by
  intro st p i h
  cases elems with
  | nil => exact h
  | cons e rest =>
      rw [traverseArr]
      exact travInv_traverseArr rest _ p (i + 1)
        (travInv_traverseDocElem e st _ h)

theorem travInv_traverseDocList (elems : List (String × BsonValue)) :
    ∀ (st : List String × AttrMap) (p : String),
      travInv st → travInv (traverseDocList st elems p) := by
  intro st p h
  cases elems with
  | nil => exact h
  | cons kv rest =>
      rw [traverseDocList]
      exact travInv_traverseDocList rest _ p
        (travInv_traverseDocElem kv.2 st _ h)

end

lemma deltaChain_length (n : Nat) : ∀ (v : Nat) (s : DeltaState),
    (deltaChain n v s).1.length = n := by
  induction n with
  | zero => intro v s; rfl
  | succ n ih => intro v s; simp [deltaChain, ih]

lemma alGet_alPut_self (mp : AttrMap) (k : String) (l : List Nat) :
    alGet (alPut mp k l) k = l := by
  induction mp with
  | nil => simp [alPut, alGet]
  | cons kv rest ih =>
      by_cases hk : kv.1 = k
      · simp [alPut, alGet, hk]
      · simp [alPut, alGet, hk, ih]

lemma alGet_alPut_ne (mp : AttrMap) (k k' : String) (l : List Nat)
    (h : k' ≠ k) : alGet (alPut mp k' l) k = alGet mp k := by
  induction mp with
  | nil => simp [alPut, alGet, h]
  | cons kv rest ih =>
      by_cases hk : kv.1 = k'
      · simp [alPut, alGet, hk, h]
      · simp only [alPut, if_neg hk, alGet]
        rw [ih]

lemma alGet_deltaLoop_length (attrs : List String) : ∀ (mp : AttrMap)
    (nd : Nat) (s : DeltaState) (k : String),
    (alGet (deltaLoop mp attrs nd s) k).length =
      (alGet mp k).length + attrs.count k * nd := by
  induction attrs with
  | nil => simp [deltaLoop]
  | cons a rest ih =>
      intro mp nd s k
      rcases hdc : deltaChain nd ((alGet mp a).headD 0) s with ⟨vals, s2⟩
      have hv : vals.length = nd := by
        have := deltaChain_length nd ((alGet mp a).headD 0) s
        rw [hdc] at this
        exact this
      rw [deltaLoop]
      simp only [hdc]
      rw [ih]
      by_cases hak : a = k
      · subst hak
        rw [alGet_alPut_self]
        simp [List.count_cons, hv]
        ring
      · rw [alGet_alPut_ne _ _ _ _ hak]
        simp [List.count_cons, hak]

lemma alPut_keys_of_mem (mp : AttrMap) (k : String) (l : List Nat) :
    k ∈ mp.map Prod.fst → (alPut mp k l).map Prod.fst = mp.map Prod.fst := by
  induction mp with
  | nil => intro h; simp at h
  | cons kv rest ih =>
      intro h
      by_cases hk : kv.1 = k
      · simp [alPut, hk]
      · have h' : k ∈ rest.map Prod.fst := by
          rw [List.map_cons, List.mem_cons] at h
          rcases h with h | h
          · exact absurd h.symm hk
          · exact h
        simp only [alPut, if_neg hk, List.map_cons]
        rw [ih h']

lemma deltaLoop_keys (attrs : List String) : ∀ (mp : AttrMap) (nd : Nat)
    (s : DeltaState), (∀ a ∈ attrs, a ∈ mp.map Prod.fst) →
    (deltaLoop mp attrs nd s).map Prod.fst = mp.map Prod.fst := by
  induction attrs with
  | nil => intro mp nd s _; rfl
  | cons a rest ih =>
      intro mp nd s hmem
      rcases hdc : deltaChain nd ((alGet mp a).headD 0) s with ⟨vals, s2⟩
      rw [deltaLoop]
      simp only [hdc]
      have hput := alPut_keys_of_mem mp a (alGet mp a ++ vals) (hmem a (by simp))
      have hrest : ∀ x ∈ rest, x ∈ (alPut mp a (alGet mp a ++ vals)).map Prod.fst := by
        intro x hx
        rw [hput]
        exact hmem x (by simp [hx])
      rw [ih _ nd s2 hrest, hput]

lemma alGet_mem_self (mp : AttrMap) (k : String) :
    k ∈ mp.map Prod.fst → (k, alGet mp k) ∈ mp := by
  induction mp with
  | nil => intro h; simp at h
  | cons kv rest ih =>
      intro h
      obtain ⟨k1, l1⟩ := kv
      by_cases hk : k1 = k
      · subst hk
        simp [alGet]
      · have h' : k ∈ rest.map Prod.fst := by
          rw [List.map_cons, List.mem_cons] at h
          rcases h with h | h
          · exact absurd h.symm hk
          · exact h
        simp only [alGet, if_neg hk]
        exact List.mem_cons_of_mem _ (ih h')

lemma alGet_of_mem_nodup (mp : AttrMap) (k : String) (l : List Nat) :
    (mp.map Prod.fst).Nodup → (k, l) ∈ mp → alGet mp k = l := by
  induction mp with
  | nil => intro _ h; simp at h
  | cons kv rest ih =>
      intro hnd h
      obtain ⟨k1, l1⟩ := kv
      rw [List.map_cons, List.nodup_cons] at hnd
      rcases List.mem_cons.mp h with h | h
      · injection h with h1 h2
        subst h1
        subst h2
        simp [alGet]
      · have hk : k1 ≠ k := by
          intro heq
          exact hnd.1 (heq ▸ List.mem_map.mpr ⟨(k, l), h, rfl⟩)
        simp only [alGet, if_neg hk]
        exact ih hnd.2 h

/-- Shared decode postcondition: on success the traversal list matches the
header count, `NumDeltas` is stored, and each map entry's series collects
one seed value plus `numDeltas` reconstructed values per occurrence of its
path in the traversal list. -/
lemma decode_spec (docElem : BsonValue) (na nd : Nat) (bytes : List Nat)
    (md : MetricsData) (h : decode docElem na nd bytes = some md) :
    md.attribsList.length = na ∧ md.NumDeltas = nd ∧
      (∀ k, k ∈ md.attribsList →
        (alGet md.DataPointsMap k).length = 1 + md.attribsList.count k * nd) ∧
      (∀ k l, (k, l) ∈ md.DataPointsMap →
        l.length = 1 + md.attribsList.count k * nd) := by
  have hinv : travInv (traverseDocElem ([], []) docElem "") :=
    travInv_traverseDocElem docElem ([], []) "" (by
      refine ⟨by simp, ?_, by simp⟩
      intro k
      simp)
  rcases hst : traverseDocElem ([], []) docElem "" with ⟨lst, mp⟩
  rw [hst] at hinv
  rw [decode, hst] at h
  by_cases hlen : lst.length ≠ na
  · rw [if_pos hlen] at h
    exact absurd h (by simp)
  · rw [if_neg hlen] at h
    push_neg at hlen
    have hmd := (Option.some.inj h).symm
    subst hmd
    have hsub : ∀ a ∈ lst, a ∈ mp.map Prod.fst := by
      intro a ha
      obtain ⟨l', hl'⟩ := (hinv.2.1 a).mpr ha
      exact List.mem_map.mpr ⟨(a, l'), hl', rfl⟩
    have hkeys := deltaLoop_keys lst mp nd ⟨bytes, 0⟩ hsub
    have hseed : ∀ k, k ∈ mp.map Prod.fst → (alGet mp k).length = 1 := by
      intro k hkm
      exact hinv.1 _ (alGet_mem_self mp k hkm)
    have hlenk : ∀ k, k ∈ mp.map Prod.fst →
        (alGet (deltaLoop mp lst nd ⟨bytes, 0⟩) k).length = 1 + lst.count k * nd := by
      intro k hkm
      have hcnt := alGet_deltaLoop_length lst mp nd ⟨bytes, 0⟩ k
      rw [hseed k hkm] at hcnt
      rw [hcnt, Nat.add_comm]
    refine ⟨hlen, rfl, ?_, ?_⟩
    · intro k hk
      exact hlenk k (hsub k hk)
    · intro k l hkl
      have hkm : k ∈ mp.map Prod.fst := by
        rw [← hkeys]
        exact List.mem_map.mpr ⟨(k, l), hkl, rfl⟩
      have hnd2 : ((deltaLoop mp lst nd ⟨bytes, 0⟩).map Prod.fst).Nodup := by
        rw [hkeys]
        exact hinv.2.2
      have hget := alGet_of_mem_nodup _ k l hnd2 hkl
      rw [← hget]
      exact hlenk k hkm

/-- C1 counterexample: the duplicate-key document `{a:1, a:1}` decodes
successfully with `numAttribs = 2`, `numDeltas = 1`, yet the shared series
of path `a` ends with `1 + 2·numDeltas = 3` values — the delta loop walks
the traversal list and appends `numDeltas` values to the shared slice per
occurrence, so the claimed length `numDeltas + 1 = 2` fails. -/
theorem decode_duplicate_key_series_length :
    decode dupKeyDoc 2 1 [1, 1] = some dupKeyDecoded ∧
      (alGet dupKeyDecoded.DataPointsMap "a").length = 3 ∧ (3 : Nat) ≠ 1 + 1 := by
  decide

/-- C1 (amended): whenever `decode` succeeds, the traversal-order attribute
list has exactly `numAttribs` entries, and the series shared by all
occurrences of a path has length `1 + k·numDeltas` where `k` is the number
of occurrences of that path in the traversal list — in particular
`numDeltas + 1` exactly for paths that occur once. -/
theorem decode_attrib_invariant (docElem : BsonValue) (na nd : Nat)
    (bytes : List Nat) (md : MetricsData)
    (h : decode docElem na nd bytes = some md) :
    md.attribsList.length = na ∧
      ∀ k l, (k, l) ∈ md.DataPointsMap →
        l.length = 1 + md.attribsList.count k * nd := by
  obtain ⟨h1, -, -, h4⟩ := decode_spec docElem na nd bytes md h
  exact ⟨h1, h4⟩

/-- C1 witness: the amended invariant evaluated on the duplicate-key
document. -/
theorem decode_attrib_invariant_witness :
    dupKeyDecoded.attribsList.length = 2 ∧
      ∀ k l, (k, l) ∈ dupKeyDecoded.DataPointsMap →
        l.length = 1 + dupKeyDecoded.attribsList.count k * 1 :=
  decode_attrib_invariant dupKeyDoc 2 1 [1, 1] dupKeyDecoded (by decide)

/-- C10: the block loop of `readDiagnosticFile` projects typed records only
for sample offsets `0 .. NumDeltas − 1`; for a successfully decoded block
and a path occurring once in the traversal list the series has
`NumDeltas + 1` values, so its final reconstructed sample (index
`NumDeltas`) is never converted into a record. -/
theorem readDiagnosticFile_skips_final_sample (docElem : BsonValue)
    (na nd : Nat) (bytes : List Nat) (md : MetricsData)
    (h : decode docElem na nd bytes = some md) (k : String)
    (hk : md.attribsList.count k = 1) :
    (alGet md.DataPointsMap k).length = md.NumDeltas + 1 ∧
      (∀ i ∈ sampleIndices md, i < md.NumDeltas) ∧
      md.NumDeltas ∉ sampleIndices md := by
  obtain ⟨-, hnd, h3, -⟩ := decode_spec docElem na nd bytes md h
  refine ⟨?_, ?_, ?_⟩
  · have hkmem : k ∈ md.attribsList := by
      by_contra hnotm
      rw [List.count_eq_zero_of_not_mem hnotm] at hk
      exact absurd hk (by simp)
    rw [h3 k hkmem, hk, hnd]
    omega
  · intro i hi
    exact List.mem_range.mp hi
  · simp [sampleIndices]

/-- C10 witness: evaluated on the Scenario A decode, whose paths occur
once each. -/
theorem readDiagnosticFile_skips_final_sample_witness :
    (alGet scenarioADecoded.DataPointsMap "a").length =
        scenarioADecoded.NumDeltas + 1 ∧
      (∀ i ∈ sampleIndices scenarioADecoded, i < scenarioADecoded.NumDeltas) ∧
      scenarioADecoded.NumDeltas ∉ sampleIndices scenarioADecoded :=
  readDiagnosticFile_skips_final_sample scenarioADoc 2 2 scenarioABytes
    scenarioADecoded (by decide) "a" (by decide)

lemma tsAppend_keys (m : TSMap) (k : String) (p : DataPt) :
    (tsAppend m k p).map Prod.fst = m.map Prod.fst := by
  induction m with
  | nil => rfl
  | cons kv rest ih =>
      by_cases hk : kv.1 = k
      · simp [tsAppend, hk]
      · simp only [tsAppend, if_neg hk, List.map_cons]
        rw [ih]

lemma applyUpdates_keys (us : List (String × ℚ)) : ∀ (m : TSMap) (t : ℚ),
    (applyUpdates m t us).map Prod.fst = m.map Prod.fst := by
  induction us with
  | nil => intro m t; rfl
  | cons u rest ih =>
      intro m t
      rw [show applyUpdates m t (u :: rest) =
        applyUpdates (tsAppend m u.1 (dataPoint u.2 t)) t rest from rfl]
      rw [ih, tsAppend_keys]

lemma tsFind_tsAppend_ne (m : TSMap) (k k' : String) (p : DataPt)
    (h : k' ≠ k) : tsFind (tsAppend m k' p) k = tsFind m k := by
  induction m with
  | nil => simp [tsAppend, tsFind]
  | cons kv rest ih =>
      by_cases hk : kv.1 = k'
      · rw [tsAppend, if_pos hk, tsFind, tsFind]
        have : ¬ kv.1 = k := by rw [hk]; exact h
        rw [if_neg this, if_neg this]
      · rw [tsAppend, if_neg hk, tsFind, tsFind]
        by_cases hk2 : kv.1 = k
        · rw [if_pos hk2, if_pos hk2]
        · rw [if_neg hk2, if_neg hk2, ih]

lemma tsFind_tsAppend_self (m : TSMap) (k : String) (p : DataPt)
    (h : k ∈ m.map Prod.fst) :
    tsFind (tsAppend m k p) k = tsFind m k ++ [p] := by
  induction m with
  | nil => simp at h
  | cons kv rest ih =>
      by_cases hk : kv.1 = k
      · rw [tsAppend, if_pos hk, tsFind, if_pos hk, tsFind, if_pos hk]
      · have h' : k ∈ rest.map Prod.fst := by
          rw [List.map_cons, List.mem_cons] at h
          rcases h with h | h
          · exact absurd h.symm hk
          · exact h
        rw [tsAppend, if_neg hk, tsFind, if_neg hk, tsFind, if_neg hk, ih h']

lemma tsFind_applyUpdates (us : List (String × ℚ)) : ∀ (m : TSMap) (t : ℚ)
    (k : String), k ∈ m.map Prod.fst →
    tsFind (applyUpdates m t us) k =
      tsFind m k ++ (us.filter (fun u => u.1 == k)).map (fun u => dataPoint u.2 t) := by
  induction us with
  | nil => intro m t k _; simp [applyUpdates]
  | cons u rest ih =>
      intro m t k hk
      rw [show applyUpdates m t (u :: rest) =
        applyUpdates (tsAppend m u.1 (dataPoint u.2 t)) t rest from rfl]
      have hk' : k ∈ (tsAppend m u.1 (dataPoint u.2 t)).map Prod.fst := by
        rw [tsAppend_keys]; exact hk
      rw [ih _ t k hk']
      by_cases hu : u.1 = k
      · rw [hu, tsFind_tsAppend_self m k _ hk]
        simp only [List.filter_cons]
        have hb : (u.1 == k) = true := by simp [hu]
        rw [hb]
        simp
      · rw [tsFind_tsAppend_ne m k u.1 _ hu]
        simp only [List.filter_cons]
        have hb : (u.1 == k) = false := by simp [hu]
        rw [hb]
        simp

lemma tsFind_init (legends : List String) (k : String) :
    tsFind (initTimeSeriesMap legends) k = [] := by
  induction legends with
  | nil => rfl
  | cons a rest ih =>
      rw [initTimeSeriesMap] at *
      simp only [List.map_cons]
      rw [tsFind]
      by_cases ha : a = k
      · rw [if_pos ha]
      · rw [if_neg ha, ih]

lemma initTimeSeriesMap_keys (legends : List String) :
    (initTimeSeriesMap legends).map Prod.fst = legends := by
  rw [initTimeSeriesMap, List.map_map]
  simp [Function.comp_def]

lemma gaugeUpdates_filter_opsQuery (s : ServerStatusDoc) :
    (gaugeUpdates s).filter (fun u => u.1 == "ops_query") = [] := rfl

lemma deltaUpdates_filter_opsQuery (s p : ServerStatusDoc) (secs : ℚ) :
    (deltaUpdates s p secs).filter (fun u => u.1 == "ops_query") =
      [("ops_query", (u64sub s.OpCounters.Query p.OpCounters.Query : ℚ) / secs)] := rfl

lemma opsQueryRateSeries_cons (pstat stat : ServerStatusDoc)
    (rest : List ServerStatusDoc) :
    opsQueryRateSeries (pstat :: stat :: rest) =
      (if stat.Uptime ≤ pstat.Uptime then []
       else [dataPoint
         ((u64sub stat.OpCounters.Query pstat.OpCounters.Query : ℚ) /
           elapsedSeconds stat pstat) ((stat.LocalTimeMs : ℚ))]) ++
        opsQueryRateSeries (stat :: rest) := by
  rw [opsQueryRateSeries, opsQueryRateSeries]
  by_cases hup : stat.Uptime ≤ pstat.Uptime
  · simp [hup, List.filterMap_cons]
  · simp [hup, List.filterMap_cons]

lemma tsFind_ssLoop (l : List ServerStatusDoc) : ∀ (m : TSMap)
    (pstat : ServerStatusDoc), "ops_query" ∈ m.map Prod.fst →
    tsFind (getAllSSLoop m pstat false l) "ops_query" =
      tsFind m "ops_query" ++ opsQueryRateSeries (pstat :: l) := by
  induction l with
  | nil =>
      intro m pstat _
      simp [getAllSSLoop, opsQueryRateSeries]
  | cons stat rest ih =>
      intro m pstat hk
      rw [opsQueryRateSeries_cons, getAllSSLoop]
      by_cases hup : stat.Uptime ≤ pstat.Uptime
      · rw [if_pos hup, if_pos hup, ih m stat hk]
        simp
      · rw [if_neg hup, if_neg hup]
        simp only [Bool.false_eq_true, if_false]
        have hk1 : "ops_query" ∈ (applyUpdates m ((stat.LocalTimeMs : ℚ))
            (gaugeUpdates stat)).map Prod.fst := by
          rw [applyUpdates_keys]
          exact hk
        have hk2 : "ops_query" ∈ (applyUpdates (applyUpdates m
            ((stat.LocalTimeMs : ℚ)) (gaugeUpdates stat)) ((stat.LocalTimeMs : ℚ))
            (deltaUpdates stat pstat (elapsedSeconds stat pstat))).map Prod.fst := by
          rw [applyUpdates_keys]
          exact hk1
        rw [ih _ stat hk2,
          tsFind_applyUpdates _ _ _ _ hk1, deltaUpdates_filter_opsQuery,
          tsFind_applyUpdates _ _ _ _ hk, gaugeUpdates_filter_opsQuery]
        simp [List.append_assoc]

lemma opsQuery_eq (l : List ServerStatusDoc) :
    tsFind (getAllServerStatusTimeSeriesDoc l) "ops_query" =
      opsQueryRateSeries l := by
  cases l with
  | nil => simp [getAllServerStatusTimeSeriesDoc, opsQueryRateSeries, tsFind]
  | cons stat rest =>
      rw [getAllServerStatusTimeSeriesDoc, if_neg (by simp)]
      have hk : "ops_query" ∈ (initTimeSeriesMap allLegends).map Prod.fst := by
        rw [initTimeSeriesMap_keys]
        decide
      rw [getAllSSLoop]
      by_cases hup : stat.Uptime ≤ (({} : ServerStatusDoc)).Uptime
      · rw [if_pos hup, tsFind_ssLoop rest _ stat hk, tsFind_init,
          List.nil_append]
      · rw [if_neg hup]
        simp only [if_true]
        have hk1 : "ops_query" ∈ (applyUpdates (initTimeSeriesMap allLegends)
            ((stat.LocalTimeMs : ℚ)) (gaugeUpdates stat)).map Prod.fst := by
          rw [applyUpdates_keys]
          exact hk
        rw [tsFind_ssLoop rest _ stat hk1,
          tsFind_applyUpdates _ _ _ _ hk, gaugeUpdates_filter_opsQuery, tsFind_init]
        simp

lemma u64sub_of_le (a b : Nat) (hle : b ≤ a) (hlt : a < 2 ^ 64) :
    u64sub a b = a - b := by
  rw [u64sub, wrap64]
  have h0 : (0 : Int) ≤ (a : Int) - b := by omega
  have h1 : (a : Int) - b < 2 ^ 64 := by omega
  rw [Int.emod_eq_of_lt h0 (by exact_mod_cast h1)]
  omega

/-- C8 counterexample: between `ssSample0` (uptime 10, 100 queries) and
`ssSample1` (uptime 20, 50 queries) the query counter decreased while the
uptime increased, yet a delta point *is* appended to `ops_query` — with the
wrapped `uint64` difference `2^64 − 50`, not the claimed
`(current − previous)/elapsed = −50`. -/
theorem opsQuery_wraps_on_decrease :
    ssSample1.OpCounters.Query ≤ ssSample0.OpCounters.Query ∧
      tsFind (getAllServerStatusTimeSeriesDoc [ssSample0, ssSample1]) "ops_query" =
        [⟨((18446744073709551566 : ℕ) : ℚ), 2000⟩] ∧
      (((18446744073709551566 : ℕ) : ℚ)) ≠ (50 - 100 : ℚ) / 1 := by
  refine ⟨by decide, ?_, by norm_num⟩
  rw [opsQuery_eq]
  rw [show opsQueryRateSeries [ssSample0, ssSample1] =
    [dataPoint ((u64sub ssSample1.OpCounters.Query ssSample0.OpCounters.Query : ℚ) /
      elapsedSeconds ssSample1 ssSample0) ((ssSample1.LocalTimeMs : ℚ))] from by
    rw [opsQueryRateSeries_cons]
    rw [if_neg (by decide)]
    simp [opsQueryRateSeries]]
  have hsub : u64sub ssSample1.OpCounters.Query ssSample0.OpCounters.Query =
      18446744073709551566 := by decide
  have hsecs : elapsedSeconds ssSample1 ssSample0 = 1 := by
    rw [elapsedSeconds, ssSample0, ssSample1]
    norm_num [roundHalfAway]
  rw [hsub, hsecs, dataPoint]
  norm_num [ssSample1]

/-- C8 (amended): the derived `ops_query` series has one point per adjacent
sample pair whose `Uptime` strictly increased (a non-increasing uptime
marks a restart and the whole sample contributes no delta point); its value
is the *wrapped* `uint64` counter difference over
`max(1, round(Δt))` seconds, which equals `(current − previous)/elapsed`
exactly when the counter did not decrease. -/
theorem opsQuery_rate_characterization :
    (∀ l : List ServerStatusDoc,
        tsFind (getAllServerStatusTimeSeriesDoc l) "ops_query" =
          opsQueryRateSeries l) ∧
      ∀ p c : ServerStatusDoc, p.OpCounters.Query ≤ c.OpCounters.Query →
        c.OpCounters.Query < 2 ^ 64 →
        (u64sub c.OpCounters.Query p.OpCounters.Query : ℚ) =
          ((c.OpCounters.Query - p.OpCounters.Query : ℕ) : ℚ) := by
  refine ⟨opsQuery_eq, ?_⟩
  intro p c hle hlt
  rw [u64sub_of_le _ _ hle hlt]

/-- C8 witness: the characterization applied to the concrete two-sample
list, and the non-wrapping difference evaluated with the samples swapped
(50 ≤ 100). -/
theorem opsQuery_rate_characterization_witness :
    tsFind (getAllServerStatusTimeSeriesDoc [ssSample0, ssSample1]) "ops_query" =
        opsQueryRateSeries [ssSample0, ssSample1] ∧
      (u64sub ssSample0.OpCounters.Query ssSample1.OpCounters.Query : ℚ) =
        ((ssSample0.OpCounters.Query - ssSample1.OpCounters.Query : ℕ) : ℚ) :=
  ⟨opsQuery_rate_characterization.1 [ssSample0, ssSample1],
   opsQuery_rate_characterization.2 ssSample1 ssSample0 (by decide) (by decide)⟩

lemma dataPoint_nonneg (v t : ℚ) : 0 ≤ (dataPoint v t).v := by
  rw [dataPoint]
  by_cases h : v < 0
  · simp [h]
  · simp [h]
    exact le_of_not_lt h

lemma nonnegTS_tsAppend (k : String) (p : DataPt) (hp : 0 ≤ p.v) :
    ∀ m : TSMap, nonnegTS m → nonnegTS (tsAppend m k p) := by
  intro m
  induction m with
  | nil =>
      intro _ kv hkv
      simp [tsAppend] at hkv
  | cons kv0 rest ih =>
      intro h kv hkv
      have hrest : nonnegTS rest := fun kv2 hkv2 q hq =>
        h kv2 (List.mem_cons_of_mem _ hkv2) q hq
      rw [tsAppend] at hkv
      by_cases hk : kv0.1 = k
      · rw [if_pos hk] at hkv
        rcases List.mem_cons.mp hkv with rfl | hkv
        · intro q hq
          rcases List.mem_append.mp hq with hq | hq
          · exact h kv0 (by simp) q hq
          · have : q = p := by simpa using hq
            rw [this]
            exact hp
        · exact h kv (List.mem_cons_of_mem _ hkv)
      · rw [if_neg hk] at hkv
        rcases List.mem_cons.mp hkv with h1 | hkv
        · rw [h1]
          exact h (kv0.1, kv0.2) (by simp)
        · exact ih hrest kv hkv

lemma nonnegTS_applyUpdates (us : List (String × ℚ)) : ∀ (m : TSMap) (t : ℚ),
    nonnegTS m → nonnegTS (applyUpdates m t us) := by
  induction us with
  | nil => intro m t h; exact h
  | cons u rest ih =>
      intro m t h
      rw [show applyUpdates m t (u :: rest) =
        applyUpdates (tsAppend m u.1 (dataPoint u.2 t)) t rest from rfl]
      exact ih _ t (nonnegTS_tsAppend u.1 _ (dataPoint_nonneg _ _) m h)

lemma nonnegTS_init (legends : List String) :
    nonnegTS (initTimeSeriesMap legends) := by
  intro kv hkv
  rw [initTimeSeriesMap] at hkv
  obtain ⟨l, -, rfl⟩ := List.mem_map.mp hkv
  intro q hq
  simp at hq

lemma nonnegTS_ssLoop (l : List ServerStatusDoc) :
    ∀ (m : TSMap) (pstat : ServerStatusDoc) (isFirst : Bool),
      nonnegTS m → nonnegTS (getAllSSLoop m pstat isFirst l) := by
  induction l with
  | nil => intro m pstat isFirst h; exact h
  | cons stat rest ih =>
      intro m pstat isFirst h
      rw [getAllSSLoop]
      by_cases hup : stat.Uptime ≤ pstat.Uptime
      · rw [if_pos hup]
        exact ih m stat false h
      · rw [if_neg hup]
        cases isFirst with
        | true =>
            simp only [if_true]
            exact ih _ stat false (nonnegTS_applyUpdates _ _ _ h)
        | false =>
            simp only [Bool.false_eq_true, if_false]
            exact ih _ stat false
              (nonnegTS_applyUpdates _ _ _ (nonnegTS_applyUpdates _ _ _ h))

lemma nonnegDisk_default : nonnegDisk ({} : DiskStats) := by
  refine ⟨?_, ?_, ?_, ?_, ?_, ?_⟩ <;> intro p hp <;> simp at hp

lemma nonnegDS_dsGet (m : List (String × DiskStats)) (k : String)
    (h : nonnegDS m) : nonnegDisk (dsGet m k) := by
  induction m with
  | nil => exact nonnegDisk_default
  | cons kv rest ih =>
      rw [dsGet]
      by_cases hk : kv.1 = k
      · rw [if_pos hk]
        exact h kv (by simp)
      · rw [if_neg hk]
        exact ih (fun kv2 hkv2 => h kv2 (List.mem_cons_of_mem _ hkv2))

lemma nonnegDS_dsPut (m : List (String × DiskStats)) (k : String)
    (d : DiskStats) (hd : nonnegDisk d) (h : nonnegDS m) :
    nonnegDS (dsPut m k d) := by
  induction m with
  | nil =>
      intro kv hkv
      rw [dsPut] at hkv
      have : kv = (k, d) := by simpa using hkv
      rw [this]
      exact hd
  | cons kv0 rest ih =>
      intro kv hkv
      have hrest : nonnegDS rest := fun kv2 hkv2 => h kv2 (List.mem_cons_of_mem _ hkv2)
      rw [dsPut] at hkv
      by_cases hk : kv0.1 = k
      · rw [if_pos hk] at hkv
        rcases List.mem_cons.mp hkv with h1 | hkv
        · rw [h1]
          exact hd
        · exact h kv (List.mem_cons_of_mem _ hkv)
      · rw [if_neg hk] at hkv
        rcases List.mem_cons.mp hkv with h1 | hkv
        · rw [h1]
          exact h (kv0.1, kv0.2) (by simp)
        · exact ih hrest kv hkv

lemma nonnegDisk_smDiskStep (pd : List (String × DiskMetrics)) (t s : ℚ)
    (acc : List (String × DiskStats)) (kv : String × DiskMetrics)
    (h : nonnegDS acc) : nonnegDS (smDiskStep pd t s acc kv) := by
  rw [smDiskStep]
  refine nonnegDS_dsPut _ _ _ ?_ h
  obtain ⟨h1, h2, h3, h4, h5, h6⟩ := nonnegDS_dsGet acc kv.1 h
  refine ⟨?_, ?_, ?_, ?_, ?_, ?_⟩ <;> intro p hp <;>
    rcases List.mem_append.mp hp with hp | hp
  · exact h1 p hp
  · rw [show p = _ from by simpa using hp]; exact dataPoint_nonneg _ _
  · exact h2 p hp
  · rw [show p = _ from by simpa using hp]; exact dataPoint_nonneg _ _
  · exact h3 p hp
  · rw [show p = _ from by simpa using hp]; exact dataPoint_nonneg _ _
  · exact h4 p hp
  · rw [show p = _ from by simpa using hp]; exact dataPoint_nonneg _ _
  · exact h5 p hp
  · rw [show p = _ from by simpa using hp]; exact dataPoint_nonneg _ _
  · exact h6 p hp
  · rw [show p = _ from by simpa using hp]; exact dataPoint_nonneg _ _

lemma nonnegDS_diskFold (pd : List (String × DiskMetrics)) (t s : ℚ)
    (dl : List (String × DiskMetrics)) : ∀ (acc : List (String × DiskStats)),
    nonnegDS acc → nonnegDS (dl.foldl (smDiskStep pd t s) acc) := by
  induction dl with
  | nil => intro acc h; exact h
  | cons kv rest ih =>
      intro acc h
      rw [List.foldl_cons]
      exact ih _ (nonnegDisk_smDiskStep pd t s acc kv h)

lemma nonneg_smLoop (l : List SystemMetricsDoc) :
    ∀ (m : TSMap) (ds : List (String × DiskStats)) (pstat : SystemMetricsDoc),
    nonnegTS m → nonnegDS ds →
    nonnegTS (getSystemMetricsLoop m ds pstat l).1 ∧
      nonnegDS (getSystemMetricsLoop m ds pstat l).2 := by
  induction l with
  | nil => intro m ds pstat hm hds; exact ⟨hm, hds⟩
  | cons stat rest ih =>
      intro m ds pstat hm hds
      rw [getSystemMetricsLoop]
      refine ih _ _ stat (nonnegTS_applyUpdates _ _ _ hm) ?_
      rw [smDiskUpdates]
      exact nonnegDS_diskFold _ _ _ stat.Disks ds hds

lemma nonneg_tsdPut (m : TSMap) (k : String) (d : TimeSeriesDoc)
    (hd : ∀ p ∈ d.DataPoints, 0 ≤ p.v) (h : nonnegTS m) :
    nonnegTS (tsdPut m k d) := by
  induction m with
  | nil =>
      intro kv hkv
      have : kv = (k, d) := by simpa [tsdPut] using hkv
      rw [this]
      exact hd
  | cons kv0 rest ih =>
      intro kv hkv
      have hrest : nonnegTS rest := fun kv2 hkv2 => h kv2 (List.mem_cons_of_mem _ hkv2)
      rw [tsdPut] at hkv
      by_cases hk : kv0.1 = k
      · rw [if_pos hk] at hkv
        rcases List.mem_cons.mp hkv with h1 | hkv
        · rw [h1]
          exact hd
        · exact h kv (List.mem_cons_of_mem _ hkv)
      · rw [if_neg hk] at hkv
        rcases List.mem_cons.mp hkv with h1 | hkv
        · rw [h1]
          exact h (kv0.1, kv0.2) (by simp)
        · exact ih hrest kv hkv

lemma nonneg_tsdGetD (m : TSMap) (k : String) (h : nonnegTS m) :
    ∀ p ∈ (tsdGetD m k).DataPoints, 0 ≤ p.v := by
  induction m with
  | nil =>
      intro p hp
      simp [tsdGetD] at hp
  | cons kv rest ih =>
      rw [tsdGetD]
      by_cases hk : kv.1 = k
      · rw [if_pos hk]
        exact h kv (by simp)
      · rw [if_neg hk]
        exact ih (fun kv2 hkv2 => h kv2 (List.mem_cons_of_mem _ hkv2))

lemma nonneg_replLagMemberStep (hosts : List String) (ts : Int) (t : ℚ)
    (acc : TSMap) (ni : Nat × ReplMember) (h : nonnegTS acc) :
    nonnegTS (replLagMemberStep hosts ts t acc ni) := by
  rw [replLagMemberStep]
  by_cases h7 : ni.2.State = 7
  · rw [if_pos h7]
    exact h
  · rw [if_neg h7]
    refine nonneg_tsdPut _ _ _ ?_ h
    intro p hp
    rcases List.mem_append.mp hp with hp | hp
    · exact nonneg_tsdGetD acc _ h p hp
    · rw [show p = _ from by simpa using hp]
      exact dataPoint_nonneg _ _

lemma nonneg_replLagFold (hosts : List String) (ts : Int) (t : ℚ)
    (dl : List (Nat × ReplMember)) : ∀ acc : TSMap, nonnegTS acc →
    nonnegTS (dl.foldl (replLagMemberStep hosts ts t) acc) := by
  induction dl with
  | nil => intro acc h; exact h
  | cons ni rest ih =>
      intro acc h
      rw [List.foldl_cons]
      exact ih _ (nonneg_replLagMemberStep hosts ts t acc ni h)

lemma nonneg_replRebuildStep (acc : List String × TSMap) (ni : Nat × ReplMember)
    (h : nonnegTS acc.2) : nonnegTS (replRebuildStep acc ni).2 := by
  rw [replRebuildStep]
  refine nonneg_tsdPut _ _ _ (by intro p hp; simp at hp) ?_
  exact nonneg_tsdPut _ _ _ (by intro p hp; simp at hp) h

lemma nonneg_replRebuildFold (dl : List (Nat × ReplMember)) :
    ∀ acc : List String × TSMap, nonnegTS acc.2 →
    nonnegTS (dl.foldl replRebuildStep acc).2 := by
  induction dl with
  | nil => intro acc h; exact h
  | cons ni rest ih =>
      intro acc h
      rw [List.foldl_cons]
      exact ih _ (nonneg_replRebuildStep acc ni h)

lemma nonneg_replLoop (l : List ReplSetStatusDoc) :
    ∀ (tsd lags : TSMap) (hosts : List String), nonnegTS tsd → nonnegTS lags →
    nonnegTS (getReplLoop tsd lags hosts l).1 ∧
      nonnegTS (getReplLoop tsd lags hosts l).2 := by
  induction l with
  | nil => intro tsd lags hosts h1 h2; exact ⟨h1, h2⟩
  | cons stat rest ih =>
      intro tsd lags hosts h1 h2
      rw [getReplLoop]
      by_cases hmem : stat.Members = []
      · rw [if_pos hmem]
        exact ih tsd lags hosts h1 h2
      · rw [if_neg hmem]
        by_cases hlen : hosts.length = 0 ∨
            hosts.length ≠ (sortBy (fun a b => a.Name.data ≤ b.Name.data) stat.Members).length
        · rw [if_pos hlen]
          rcases hrb : replRebuild tsd
            (sortBy (fun a b => a.Name.data ≤ b.Name.data) stat.Members) with ⟨hosts2, tsd2⟩
          have h1' : nonnegTS tsd2 := by
            have := nonneg_replRebuildFold
              ((sortBy (fun a b => a.Name.data ≤ b.Name.data) stat.Members).enum)
              ([], tsd) h1
            rw [show ((sortBy (fun a b => a.Name.data ≤ b.Name.data) stat.Members).enum.foldl
              replRebuildStep ([], tsd)) = replRebuild tsd
              (sortBy (fun a b => a.Name.data ≤ b.Name.data) stat.Members) from rfl, hrb] at this
            exact this
          exact ih tsd2 lags hosts2 h1' h2
        · rw [if_neg hlen]
          by_cases hts : (((sortBy (fun a b => a.Name.data ≤ b.Name.data)
              stat.Members).find? (fun mbr => mbr.State == 1)).map
              (fun mbr => mbr.OptimeT)).getD 0 = 0
          · rw [if_pos hts]
            exact ih tsd lags hosts h1 h2
          · rw [if_neg hts]
            refine ih tsd _ hosts h1 ?_
            rw [replLagStep]
            exact nonneg_replLagFold hosts _ _ _ lags h2

/-- C9: every point stored by the time-series deriver — the single-pass
server-status series (gauges and rates), the system-metrics CPU ratios and
per-device disk series, and the per-host replication lags — has a
nonnegative value: every append goes through `dataPoint`, which clamps
negative values to zero. -/
theorem deriver_values_nonneg :
    (∀ ssList : List ServerStatusDoc,
        nonnegTS (getAllServerStatusTimeSeriesDoc ssList)) ∧
      (∀ smList : List SystemMetricsDoc,
        nonnegTS (getSystemMetricsTimeSeriesDoc smList).1 ∧
          nonnegDS (getSystemMetricsTimeSeriesDoc smList).2) ∧
      ∀ rsList : List ReplSetStatusDoc,
        nonnegTS (getReplSetGetStatusTimeSeriesDoc rsList).1 ∧
          nonnegTS (getReplSetGetStatusTimeSeriesDoc rsList).2 := by
  refine ⟨?_, ?_, ?_⟩
  · intro ssList
    rw [getAllServerStatusTimeSeriesDoc]
    by_cases hl : ssList = []
    · rw [if_pos hl]
      intro kv hkv
      simp at hkv
    · rw [if_neg hl]
      exact nonnegTS_ssLoop ssList _ _ true (nonnegTS_init _)
  · intro smList
    rw [getSystemMetricsTimeSeriesDoc.eq_def]
    cases smList with
    | nil =>
        constructor
        · exact nonnegTS_init _
        · intro kv hkv
          simp at hkv
    | cons first rest =>
        exact nonneg_smLoop rest _ _ first (nonnegTS_init _) (by intro kv hkv; simp at hkv)
  · intro rsList
    rw [getReplSetGetStatusTimeSeriesDoc]
    refine nonneg_replLoop rsList _ [] [] ?_ (by intro kv hkv; simp at hkv)
    intro kv hkv
    obtain ⟨l, -, rfl⟩ := List.mem_map.mp hkv
    intro p hp
    simp at hp

/-- C9 witness: the nonnegativity statement instantiated on the concrete
sample lists used elsewhere in this development. -/
theorem deriver_values_nonneg_witness :
    nonnegTS (getAllServerStatusTimeSeriesDoc [ssSample0, ssSample1]) ∧
      nonnegTS (getSystemMetricsTimeSeriesDoc [smSample0, smSample1]).1 ∧
      nonnegTS (getReplSetGetStatusTimeSeriesDoc [replSample, replSample]).2 :=
  ⟨deriver_values_nonneg.1 _, (deriver_values_nonneg.2.1 _).1,
    (deriver_values_nonneg.2.2 _).2⟩
